import Mathlib

/-!
# LINE booking bot (`line-booking-bot.js`)

A shallow embedding of the booking logic of the Apps Script bot.

Modelling conventions.

* The two spreadsheets are the state.  Both carry the header rows written by
  `setupSheets`; the rows below the header are records with one field per column.
  A cell holds the value that was written to it.  Increments and seat totals are
  integer cells, on which `parseInt(cell) || 0` is the identity; timestamps are `Date`
  cells, modelled by their millisecond value.
* `CONFIG` is a record.  The source reads `CONFIG.MAX_SEATS_PER_USER`, a property the
  object literal does not have, so the field is an `Option` and is `none` in `CONFIG`.
  A comparison `x > undefined` is `false` in JavaScript.
* `getUserName` asks the LINE profile endpoint; its answer is the function `profile`.
* A reply is the template that was sent together with the values interpolated in it.
-/

namespace LineBooking

/-! ## Configuration -/

/-- The fields of the `CONFIG` object that the booking logic reads. -/
structure Config where
  MAX_SEATS : Int
  MAX_SEATS_PER_USER : Option Int
  VALID_INCREMENTS : List String
  CHECK_KEYWORD : String
  NAME_LIST_KEYWORD : String

/-- The `CONFIG` literal of the source (lines 2-19); it has no `MAX_SEATS_PER_USER`. -/
def CONFIG : Config where
  MAX_SEATS := 10
  MAX_SEATS_PER_USER := none
  VALID_INCREMENTS :=
    ["+1", "+2", "+3", "+4",
     "加一", "加二", "加三", "加四",
     "-1", "-2", "-3", "-4",
     "減一", "減二", "減三", "減四"]
  CHECK_KEYWORD := "check"
  NAME_LIST_KEYWORD := "name"

/-! ## Sheets -/

/-- A data row of the raw sheet: Timestamp, Group ID, User ID, User Name, Increment,
Message ID. -/
structure RawRow where
  timestamp : Int
  groupId : String
  userId : String
  userName : String
  increment : Int
  messageId : String
deriving DecidableEq, Repr

/-- A data row of the summary sheet: Last Update, Group ID, User ID, User Name,
Total Seats. -/
structure SummaryRow where
  lastUpdate : Int
  groupId : String
  userId : String
  userName : String
  totalSeats : Int
deriving DecidableEq, Repr

/-- The rows below the header of the raw sheet and of the summary sheet. -/
structure Sheets where
  raw : List RawRow
  summary : List SummaryRow
deriving DecidableEq, Repr

/-- A text message event of the webhook payload. -/
structure Event where
  timestamp : Int
  groupId : Option String
  userId : Option String
  text : String
  messageId : String
deriving DecidableEq, Repr

/-- The object `bookingInfo` built by `handleBooking` and written by `logRawMessage`. -/
structure BookingInfo where
  timestamp : Int
  groupId : String
  userId : String
  userName : String
  increment : Int
  messageId : String
deriving DecidableEq, Repr

/-- An element of the array `bookings` of `handleNameList` (lines 135-138). -/
structure Booking where
  name : String
  seats : Int
deriving DecidableEq, Repr

/-- The reply templates of the handlers with their interpolated values. -/
inductive Reply where
  /-- Line 90: the cancellation exceeds what the user holds. -/
  | cannotCancel (userCurrentBookings : Int)
  /-- Line 100: not enough seats left. -/
  | seatsInsufficient (currentTotal : Int) (maxSeats : Int)
  /-- Line 110: the per-user limit is exceeded. -/
  | userLimit (userCurrentBookings : Int) (maxPerUser : Option Int)
  /-- Line 121: recorded; `booked` is `increment > 0`, `amount` is `Math.abs(increment)`. -/
  | recorded (booked : Bool) (amount : Int) (newTotal : Int)
  /-- Line 142: nobody has booked yet. -/
  | noBookings
  /-- Line 151: the name list, one line per element of `bookings`, and the total. -/
  | nameList (bookings : List Booking) (totalSeats : Int)
  /-- Line 162: the booking status. -/
  | status (currentTotal : Int) (remaining : Int)
deriving DecidableEq, Repr

/-- What a handler leaves behind: the sheets and the reply sent, if any. -/
structure Outcome where
  sheets : Sheets
  reply : Option Reply
deriving DecidableEq, Repr

/-! ## Utility functions -/

/-- Source `parseIncrement` (lines 340-352): the number `numberMap[message] || 0`.  On the
names of the members that the literal inherits from `Object.prototype` the source yields
that member and no number (see `parseIncrementValue`); `doPost` passes no such text on. -/
def parseIncrement (message : String) : Int :=
  if message = "+1" ∨ message = "加一" then 1
  else if message = "+2" ∨ message = "加二" then 2
  else if message = "+3" ∨ message = "加三" then 3
  else if message = "+4" ∨ message = "加四" then 4
  else if message = "-1" ∨ message = "減一" then -1
  else if message = "-2" ∨ message = "減二" then -2
  else if message = "-3" ∨ message = "減三" then -3
  else if message = "-4" ∨ message = "減四" then -4
  else 0

/-- Source `isValidBookingMessage` (lines 58-60). -/
def isValidBookingMessage (cfg : Config) (message : String) : Bool :=
  cfg.VALID_INCREMENTS.contains message

/-- The code points that `String.prototype.trim` strips: WhiteSpace and
LineTerminator of ECMAScript. -/
def isJsWhiteSpace (c : Char) : Bool :=
  [0x9, 0xA, 0xB, 0xC, 0xD, 0x20, 0xA0, 0x1680, 0x2028, 0x2029, 0x202F, 0x205F,
    0x3000, 0xFEFF].contains c.toNat || (0x2000 ≤ c.toNat && c.toNat ≤ 0x200A)

/-- The method `trim` of a JavaScript string. -/
def trim (s : String) : String :=
  String.mk ((s.data.dropWhile isJsWhiteSpace).reverse.dropWhile isJsWhiteSpace).reverse

/-- The method `toLowerCase` of a JavaScript string, on the ASCII letters (the keywords
and the vocabulary of `CONFIG` contain no other cased letter). -/
def toLowerCase (s : String) : String :=
  String.mk (s.data.map Char.toLower)

/-- The value of `x || 'N/A'` for an optional string: `undefined` and `''` are falsy. -/
def orNA (x : Option String) : String :=
  match x with
  | none => "N/A"
  | some s => if s = "" then "N/A" else s

/-- Source `getUserName` (lines 315-337): `'Unknown'` without a user id, otherwise
what the profile request yields (a display name or one of the error placeholders). -/
def getUserName (profile : String → String) (userId : Option String) : String :=
  match userId with
  | none => "Unknown"
  | some u => if u = "" then "Unknown" else profile u

/-- The comparison `x > y` of JavaScript where `y` may be `undefined`. -/
def jsGt (x : Int) (y : Option Int) : Bool :=
  match y with
  | none => false
  | some m => decide (x > m)

/-! ## Spreadsheet operations -/

/-- Source `isMessageAlreadyLogged` (lines 191-199): column F of the raw sheet, header
cell included, contains the id.  (Blank cells of the column read as the empty string,
which is not a message id.) -/
def isMessageAlreadyLogged (s : Sheets) (messageId : String) : Bool :=
  ("Message ID" :: s.raw.map (fun row => row.messageId)).contains messageId

/-- The array `rowData` of `logRawMessage` (lines 179-186). -/
def BookingInfo.toRow (bookingInfo : BookingInfo) : RawRow :=
  { timestamp := bookingInfo.timestamp
    groupId := bookingInfo.groupId
    userId := bookingInfo.userId
    userName := bookingInfo.userName
    increment := bookingInfo.increment
    messageId := bookingInfo.messageId }

/-- Source `logRawMessage` (lines 170-189). -/
def logRawMessage (s : Sheets) (bookingInfo : BookingInfo) : Sheets :=
  if isMessageAlreadyLogged s bookingInfo.messageId then s
  else { s with raw := s.raw ++ [bookingInfo.toRow] }

/-- Source `getCurrentUserBookings` (lines 201-208).  `data.find` scans the header row
first, whose third cell is `'User ID'` and whose fifth cell parses to `NaN`; no cell is
strictly equal to `undefined`. -/
def getCurrentUserBookings (s : Sheets) (userId : Option String) : Int :=
  match userId with
  | none => 0
  | some u =>
    if u = "User ID" then 0
    else
      match s.summary.find? (fun row => row.userId = u) with
      | some userRow => userRow.totalSeats
      | none => 0

/-- Source `getCurrentBookingTotal` (lines 286-292). -/
def getCurrentBookingTotal (s : Sheets) : Int :=
  s.summary.foldl (fun total row => total + row.totalSeats) 0

/-! ## Recomputing the summary -/

/-- A value of the map `bookings` in `recalculateBookingSummary`. -/
structure Info where
  timestamp : Int
  groupId : String
  userName : String
  total : Int
deriving DecidableEq, Repr

/-- The JavaScript `Map` from user id to `Info`, as its entries in insertion order. -/
abbrev Bookings := List (String × Info)

/-- The method `has` of the map. -/
def Bookings.has (bookings : Bookings) (userId : String) : Bool :=
  bookings.any (fun entry => entry.1 = userId)

/-- The mutation of `existing` by a further row of the user (lines 236-239). -/
def Info.absorb (existing : Info) (row : RawRow) : Info :=
  { existing with
    total := existing.total + row.increment
    timestamp :=
      if row.timestamp > existing.timestamp then row.timestamp else existing.timestamp }

/-- The value set for a user id that the map does not have yet (lines 241-246). -/
def Info.first (row : RawRow) : Info :=
  { timestamp := row.timestamp
    groupId := row.groupId
    userName := row.userName
    total := row.increment }

/-- The effect of mutating the object returned by `bookings.get(userId)`: the entry of
the user is replaced in place. -/
def Bookings.update (bookings : Bookings) (row : RawRow) : Bookings :=
  match bookings with
  | [] => []
  | (userId, existing) :: rest =>
    if userId = row.userId then (userId, existing.absorb row) :: rest
    else (userId, existing) :: Bookings.update rest row

/-- The body of the `forEach` over the raw rows (lines 230-248). -/
def processRow (bookings : Bookings) (row : RawRow) : Bookings :=
  if bookings.has row.userId then bookings.update row
  else bookings ++ [(row.userId, Info.first row)]

/-- The map `bookings` after the `forEach` (lines 227-248). -/
def aggregate (raw : List RawRow) : Bookings :=
  raw.foldl processRow []

/-- The row built from a map entry (lines 260-266). -/
def toSummaryRow (entry : String × Info) : SummaryRow :=
  { lastUpdate := entry.2.timestamp
    groupId := entry.2.groupId
    userId := entry.1
    userName := entry.2.userName
    totalSeats := entry.2.total }

/-- The array `summaryData` (lines 259-268): the entries as rows, those with a positive
total, sorted by timestamp descending (`Array.prototype.sort` is stable). -/
def summaryData (raw : List RawRow) : List SummaryRow :=
  (((aggregate raw).map toSummaryRow).filter (fun row => decide (row.totalSeats > 0))).insertionSort
    (fun a b => b.lastUpdate ≤ a.lastUpdate)

/-- Source `recalculateBookingSummary` (lines 210-284): the summary sheet is cleared
and rewritten from the raw sheet. -/
def recalculateBookingSummary (s : Sheets) : Sheets :=
  { s with summary := summaryData s.raw }

/-! ## Message processing -/

/-- The object `bookingInfo` of `handleBooking` (lines 69-76). -/
def mkBookingInfo (profile : String → String) (event : Event) (increment : Int) :
    BookingInfo :=
  { timestamp := event.timestamp
    groupId := orNA event.groupId
    userId := orNA event.userId
    userName := getUserName profile event.userId
    increment := increment
    messageId := event.messageId }

/-- The tail of `handleBooking` reached by a valid booking (lines 115-121). -/
def recordBooking (s : Sheets) (bookingInfo : BookingInfo) : Outcome :=
  let s1 := recalculateBookingSummary (logRawMessage s bookingInfo)
  { sheets := s1
    reply := some (Reply.recorded (decide (bookingInfo.increment > 0))
      (Int.natAbs bookingInfo.increment) (getCurrentBookingTotal s1)) }

/-- Source `handleBooking` (lines 62-125). -/
def handleBooking (cfg : Config) (profile : String → String) (s : Sheets) (event : Event) :
    Outcome :=
  let currentTotal := getCurrentBookingTotal s
  let userCurrentBookings := getCurrentUserBookings s event.userId
  let increment := parseIncrement event.text
  let bookingInfo := mkBookingInfo profile event increment
  if isMessageAlreadyLogged s bookingInfo.messageId then
    { sheets := s, reply := none }
  else if increment < 0 then
    if (Int.natAbs increment : Int) > userCurrentBookings then
      { sheets := logRawMessage s { bookingInfo with increment := 0 }
        reply := some (Reply.cannotCancel userCurrentBookings) }
    else recordBooking s bookingInfo
  else if currentTotal + increment > cfg.MAX_SEATS then
    { sheets := logRawMessage s { bookingInfo with increment := 0 }
      reply := some (Reply.seatsInsufficient currentTotal cfg.MAX_SEATS) }
  else if jsGt (userCurrentBookings + increment) cfg.MAX_SEATS_PER_USER then
    { sheets := logRawMessage s { bookingInfo with increment := 0 }
      reply := some (Reply.userLimit userCurrentBookings cfg.MAX_SEATS_PER_USER) }
  else recordBooking s bookingInfo

/-- The dispatch of `doPost` for one text message event (lines 37-47). -/
inductive Route where
  | statusCheck
  | nameList
  | booking
  | ignored
deriving DecidableEq, Repr

/-- The branch `doPost` takes for a text message (lines 38-46). -/
def route (cfg : Config) (text : String) : Route :=
  let messageText := toLowerCase (trim text)
  if messageText = cfg.CHECK_KEYWORD then Route.statusCheck
  else if messageText = cfg.NAME_LIST_KEYWORD then Route.nameList
  else if isValidBookingMessage cfg messageText then Route.booking
  else Route.ignored

/-- The array `bookings` of `handleNameList` (lines 133-139): the rows with a truthy,
positive seat cell, as name and seats, sorted by seats descending
(`Array.prototype.sort` is stable). -/
def nameListBookings (s : Sheets) : List Booking :=
  ((s.summary.filter
      (fun row => decide (row.totalSeats ≠ 0) && decide (row.totalSeats > 0))).map
    (fun row => ({ name := row.userName, seats := row.totalSeats } : Booking))).insertionSort
    (fun a b => b.seats ≤ a.seats)

/-- Source `handleNameList` (lines 127-156). -/
def handleNameList (s : Sheets) : Outcome :=
  let bookings := nameListBookings s
  if bookings.length = 0 then { sheets := s, reply := some Reply.noBookings }
  else
    let totalSeats := bookings.foldl (fun sum booking => sum + booking.seats) 0
    { sheets := s, reply := some (Reply.nameList bookings totalSeats) }

/-- Source `handleStatusCheck` (lines 158-167). -/
def handleStatusCheck (cfg : Config) (s : Sheets) : Outcome :=
  let currentTotal := getCurrentBookingTotal s
  let remaining := cfg.MAX_SEATS - currentTotal
  { sheets := s, reply := some (Reply.status currentTotal remaining) }

/-- Source `clearSheets` (lines 435-449): the contents of both sheets are cleared and
the header rows are written back. -/
def clearSheets (_s : Sheets) : Sheets :=
  { raw := [], summary := [] }

/-- Source `dailyCleanup` (lines 419-433). -/
def dailyCleanup (s : Sheets) : Sheets :=
  recalculateBookingSummary (clearSheets s)

/-! ## The lookup in `numberMap` -/

/-- What `numberMap[message] || 0` can be: a number, or a member that the object literal
inherits from `Object.prototype` (a function, or the prototype itself). -/
inductive JsValue where
  | number (n : Int)
  | inherited (name : String)
deriving DecidableEq, Repr

/-- The own properties of the object literal `numberMap` (lines 341-350). -/
def numberMap : List (String × Int) :=
  [("+1", 1), ("加一", 1),
   ("+2", 2), ("加二", 2),
   ("+3", 3), ("加三", 3),
   ("+4", 4), ("加四", 4),
   ("-1", -1), ("減一", -1),
   ("-2", -2), ("減二", -2),
   ("-3", -3), ("減三", -3),
   ("-4", -4), ("減四", -4)]

/-- The property names that every object literal inherits from `Object.prototype`. -/
def objectPrototypeMembers : List String :=
  ["constructor", "__defineGetter__", "__defineSetter__", "hasOwnProperty",
   "__lookupGetter__", "__lookupSetter__", "isPrototypeOf", "propertyIsEnumerable",
   "toString", "valueOf", "__proto__", "toLocaleString"]

/-- The value that the source `parseIncrement` returns (line 351).  The lookup
`numberMap[message]` finds an own property, else an inherited member, else `undefined`;
`|| 0` replaces a falsy result by 0, and every inherited member is truthy. -/
def parseIncrementValue (message : String) : JsValue :=
  match numberMap.lookup message with
  | some n => if n = 0 then JsValue.number 0 else JsValue.number n
  | none =>
    if objectPrototypeMembers.contains message then JsValue.inherited message
    else JsValue.number 0

/-! ## Sequences of calls -/

/-- One call of `handleBooking`: the event, and what the profile endpoint answers at
that time. -/
structure Call where
  profile : String → String
  event : Event

/-- Both sheets with their header rows only. -/
def emptySheets : Sheets :=
  { raw := [], summary := [] }

/-- The sheets after a sequence of calls of `handleBooking`, processed one at a time. -/
def runBookings (cfg : Config) (s : Sheets) (calls : List Call) : Sheets :=
  calls.foldl (fun sheets call => (handleBooking cfg call.profile sheets call.event).sheets) s

/-! ## Quantities the statements speak about -/

/-- The row that records an event with a given increment. -/
def eventRow (profile : String → String) (event : Event) (increment : Int) : RawRow :=
  { timestamp := event.timestamp
    groupId := orNA event.groupId
    userId := orNA event.userId
    userName := getUserName profile event.userId
    increment := increment
    messageId := event.messageId }

/-- The sum of the Increment cells of the raw rows of one user. -/
def userSum (raw : List RawRow) (u : String) : Int :=
  ((raw.filter (fun row => row.userId = u)).map (fun row => row.increment)).sum

/-- The three replies that turn a booking down. -/
def Reply.isRejection (r : Reply) : Bool :=
  match r with
  | Reply.cannotCancel _ => true
  | Reply.seatsInsufficient _ _ => true
  | Reply.userLimit _ _ => true
  | Reply.recorded _ _ _ => false
  | Reply.noBookings => false
  | Reply.nameList _ _ => false
  | Reply.status _ _ => false

/-- The outcome of a rejected, not yet logged event. -/
def rejected (profile : String → String) (s : Sheets) (event : Event) (r : Reply) : Outcome :=
  { sheets := { raw := s.raw ++ [eventRow profile event 0], summary := s.summary }
    reply := some r }

/-- The outcome of an accepted, not yet logged event. -/
def accepted (profile : String → String) (s : Sheets) (event : Event) : Outcome :=
  let raw1 := s.raw ++ [eventRow profile event (parseIncrement event.text)]
  { sheets := { raw := raw1, summary := summaryData raw1 }
    reply := some (Reply.recorded (decide (parseIncrement event.text > 0))
      (Int.natAbs (parseIncrement event.text))
      (getCurrentBookingTotal { raw := raw1, summary := summaryData raw1 })) }

/-- The method `get` of the map: the value of the first entry with the key. -/
def Bookings.get? (bookings : Bookings) (userId : String) : Option Info :=
  match bookings with
  | [] => none
  | (k, info) :: rest => if k = userId then some info else Bookings.get? rest userId

/-- The total that the `forEach` of `recalculateBookingSummary` has accumulated for a
user when it ends (0 for a user without an entry). -/
def accumulated (raw : List RawRow) (u : String) : Int :=
  match (aggregate raw).get? u with
  | some info => info.total
  | none => 0

/-- The user ids of the raw sheet, each once. -/
def users (raw : List RawRow) : List String :=
  (raw.map (fun row => row.userId)).dedup

/-- What a map entry of user `u` holds, told from the raw rows: the sum of the
increments of the user, the name and group of the first row of the user, and the
greatest timestamp of the rows of the user. -/
def Describes (raw : List RawRow) (u : String) (info : Info) : Prop :=
  info.total = userSum raw u ∧
  (∃ first, raw.find? (fun row => decide (row.userId = u)) = some first ∧
    info.userName = first.userName ∧ info.groupId = first.groupId) ∧
  (∃ row ∈ raw, row.userId = u ∧ row.timestamp = info.timestamp) ∧
  ∀ row ∈ raw, row.userId = u → row.timestamp ≤ info.timestamp

/-- The summary sheet tells the totals of the raw sheet: it was computed from a log with
the same sum of increments for every user. -/
def Synced (s : Sheets) : Prop :=
  ∃ raw0, s.summary = summaryData raw0 ∧ ∀ u, userSum raw0 u = userSum s.raw u

/-- The sheets are in step and within the limits: the summary tells the totals of the
raw sheet, no user has a negative sum, no row has an empty user id, and the grand total
is the sum of all increments and at most `MAX_SEATS`. -/
def Bounded (cfg : Config) (s : Sheets) : Prop :=
  Synced s ∧
  (∀ u, 0 ≤ userSum s.raw u) ∧
  (∀ row ∈ s.raw, row.userId ≠ "") ∧
  getCurrentBookingTotal s = (s.raw.map (fun row => row.increment)).sum ∧
  getCurrentBookingTotal s ≤ cfg.MAX_SEATS

/-! ## Sample data -/

/-- A profile lookup that knows two users. -/
def sampleProfile (u : String) : String :=
  if u = "U1" then "Ann" else if u = "U2" then "Bob" else "Cho"

/-- A text message event without a group. -/
def sampleEvent (userId text messageId : String) : Event :=
  { timestamp := 5000, groupId := none, userId := some userId, text := text,
    messageId := messageId }

/-- A raw sheet in which U1 and U2 hold four seats each. -/
def rawEight : List RawRow :=
  [{ timestamp := 1000, groupId := "N/A", userId := "U1", userName := "Ann", increment := 4,
     messageId := "m1" },
   { timestamp := 2000, groupId := "N/A", userId := "U2", userName := "Bob", increment := 4,
     messageId := "m2" }]

/-- The sheets after `rawEight` was recorded: the grand total is 8. -/
def sheetsEight : Sheets :=
  { raw := rawEight, summary := summaryData rawEight }

/-- A raw sheet in which U1 books twice, under another display name and from another
group the second time. -/
def rawRenamed : List RawRow :=
  [{ timestamp := 1000, groupId := "G1", userId := "U1", userName := "Ann", increment := 1,
     messageId := "m1" },
   { timestamp := 2000, groupId := "G2", userId := "U1", userName := "Annie", increment := 1,
     messageId := "m2" }]

/-- The shipped configuration with a per-user cap of four seats. -/
def configCapFour : Config :=
  { CONFIG with MAX_SEATS_PER_USER := some 4 }

/-- A raw sheet in which U1 holds three seats. -/
def rawThree : List RawRow :=
  [{ timestamp := 1000, groupId := "N/A", userId := "U1", userName := "Ann", increment := 3,
     messageId := "m1" }]

/-- The sheets after `rawThree` was recorded. -/
def sheetsThree : Sheets :=
  { raw := rawThree, summary := summaryData rawThree }

/-- A raw sheet in which U1 holds two seats. -/
def rawTwo : List RawRow :=
  [{ timestamp := 1000, groupId := "N/A", userId := "U1", userName := "Ann", increment := 2,
     messageId := "m1" }]

/-- The sheets after `rawTwo` was recorded. -/
def sheetsTwo : Sheets :=
  { raw := rawTwo, summary := summaryData rawTwo }

/-- A text message event without a group and without a user id. -/
def anonymousEvent (text messageId : String) : Event :=
  { timestamp := 5000, groupId := none, userId := none, text := text,
    messageId := messageId }

/-- The sheets after an event without a user id booked two seats. -/
def sheetsAnonymous : Sheets :=
  runBookings CONFIG emptySheets
    [{ profile := sampleProfile, event := anonymousEvent "+2" "m1" }]

/-- A summary sheet with four rows, one of them without seats. -/
def sheetsNames : Sheets :=
  { raw := []
    summary :=
      [{ lastUpdate := 4000, groupId := "G", userId := "U1", userName := "Ann",
         totalSeats := 2 },
       { lastUpdate := 3000, groupId := "G", userId := "U2", userName := "Bob",
         totalSeats := 3 },
       { lastUpdate := 2000, groupId := "G", userId := "U3", userName := "Cho",
         totalSeats := 0 },
       { lastUpdate := 1000, groupId := "G", userId := "U4", userName := "Dan",
         totalSeats := 2 }] }

/-- Five calls: U1 books 4, U2 books 4, U3 tries to cancel 1 and then to book 3 (both
are turned down), U2 cancels 1. -/
def sampleCalls : List Call :=
  [{ profile := sampleProfile, event := sampleEvent "U1" "+4" "m1" },
   { profile := sampleProfile, event := sampleEvent "U2" "加四" "m2" },
   { profile := sampleProfile, event := sampleEvent "U3" "-1" "m3" },
   { profile := sampleProfile, event := sampleEvent "U3" "+3" "m4" },
   { profile := sampleProfile, event := sampleEvent "U2" "減一" "m5" }]

/-! ## Lemmas on `handleBooking` -/

theorem logRawMessage_of_new (s : Sheets) (b : BookingInfo)
    (h : isMessageAlreadyLogged s b.messageId = false) :
    logRawMessage s b = { raw := s.raw ++ [b.toRow], summary := s.summary } := by
  simp [logRawMessage, h]

theorem toRow_mkBookingInfo (profile : String → String) (event : Event) (increment : Int) :
    (mkBookingInfo profile event increment).toRow = eventRow profile event increment := rfl

theorem recordBooking_of_new (profile : String → String) (s : Sheets) (event : Event)
    (h : isMessageAlreadyLogged s event.messageId = false) :
    recordBooking s (mkBookingInfo profile event (parseIncrement event.text)) =
      accepted profile s event := by
  have h1 : isMessageAlreadyLogged s
      (mkBookingInfo profile event (parseIncrement event.text)).messageId = false := h
  unfold recordBooking
  rw [logRawMessage_of_new _ _ h1]
  rfl

/-- The branches of `handleBooking` on an event that is not logged yet. -/
theorem handleBooking_of_new (cfg : Config) (profile : String → String) (s : Sheets)
    (event : Event) (hnew : isMessageAlreadyLogged s event.messageId = false) :
    handleBooking cfg profile s event =
      if parseIncrement event.text < 0 then
        if (Int.natAbs (parseIncrement event.text) : Int) >
            getCurrentUserBookings s event.userId then
          rejected profile s event (Reply.cannotCancel (getCurrentUserBookings s event.userId))
        else accepted profile s event
      else if getCurrentBookingTotal s + parseIncrement event.text > cfg.MAX_SEATS then
        rejected profile s event
          (Reply.seatsInsufficient (getCurrentBookingTotal s) cfg.MAX_SEATS)
      else if jsGt (getCurrentUserBookings s event.userId + parseIncrement event.text)
          cfg.MAX_SEATS_PER_USER then
        rejected profile s event
          (Reply.userLimit (getCurrentUserBookings s event.userId) cfg.MAX_SEATS_PER_USER)
      else accepted profile s event := by
  have hrej : ∀ r, ({ sheets := logRawMessage s (mkBookingInfo profile event 0)
                      reply := some r } : Outcome) = rejected profile s event r := by
    intro r
    have h0 : isMessageAlreadyLogged s (mkBookingInfo profile event 0).messageId = false := hnew
    rw [logRawMessage_of_new _ _ h0]
    rfl
  have hacc := recordBooking_of_new profile s event hnew
  have hdup : ¬ isMessageAlreadyLogged s
      (mkBookingInfo profile event (parseIncrement event.text)).messageId = true := by
    show ¬ isMessageAlreadyLogged s event.messageId = true
    simp [hnew]
  rw [handleBooking]
  rw [if_neg hdup]
  split_ifs <;> first | exact hrej _ | exact hacc

/-- The branches of `handleBooking` on an event whose message id is in the log. -/
theorem handleBooking_of_logged (cfg : Config) (profile : String → String) (s : Sheets)
    (event : Event) (hdup : isMessageAlreadyLogged s event.messageId = true) :
    handleBooking cfg profile s event = { sheets := s, reply := none } := by
  have h : isMessageAlreadyLogged s
      (mkBookingInfo profile event (parseIncrement event.text)).messageId = true := hdup
  rw [handleBooking]
  rw [if_pos h]

/-- C1: for a not yet logged event with a positive delta, a grand total with
`grandTotal + delta > MAX_SEATS` makes `handleBooking` log the event with increment 0,
leave the summary as it is and answer that seats are insufficient; with
`grandTotal + delta <= MAX_SEATS` that answer is not given. -/
theorem handleBooking_global_capacity (cfg : Config) (profile : String → String) (s : Sheets)
    (event : Event) (hnew : isMessageAlreadyLogged s event.messageId = false)
    (hpos : 0 < parseIncrement event.text) :
    (getCurrentBookingTotal s + parseIncrement event.text > cfg.MAX_SEATS →
      handleBooking cfg profile s event =
        rejected profile s event
          (Reply.seatsInsufficient (getCurrentBookingTotal s) cfg.MAX_SEATS)) ∧
    (getCurrentBookingTotal s + parseIncrement event.text ≤ cfg.MAX_SEATS →
      ∀ a b, (handleBooking cfg profile s event).reply ≠
        some (Reply.seatsInsufficient a b)) := by
  have hneg : ¬ parseIncrement event.text < 0 := by omega
  rw [handleBooking_of_new cfg profile s event hnew, if_neg hneg]
  constructor
  · intro hgt
    rw [if_pos hgt]
  · intro hle a b
    rw [if_neg (by omega)]
    split_ifs <;> simp [rejected, accepted]

/-- C1, at the sample data: with a grand total of 8 and `MAX_SEATS = 10` a delta of +3
is rejected and a delta of +2 passes the global check (and is accepted). -/
theorem handleBooking_global_capacity_witness :
    CONFIG.MAX_SEATS = 10 ∧ getCurrentBookingTotal sheetsEight = 8 ∧
    handleBooking CONFIG sampleProfile sheetsEight (sampleEvent "U3" "+3" "m3") =
      rejected sampleProfile sheetsEight (sampleEvent "U3" "+3" "m3")
        (Reply.seatsInsufficient 8 10) ∧
    (∀ a b, (handleBooking CONFIG sampleProfile sheetsEight (sampleEvent "U3" "+2" "m3")).reply ≠
      some (Reply.seatsInsufficient a b)) ∧
    handleBooking CONFIG sampleProfile sheetsEight (sampleEvent "U3" "+2" "m3") =
      accepted sampleProfile sheetsEight (sampleEvent "U3" "+2" "m3") :=
  ⟨rfl, by decide,
    (handleBooking_global_capacity CONFIG sampleProfile sheetsEight
      (sampleEvent "U3" "+3" "m3") (by decide) (by decide)).1 (by decide),
    (handleBooking_global_capacity CONFIG sampleProfile sheetsEight
      (sampleEvent "U3" "+2" "m3") (by decide) (by decide)).2 (by decide),
    by decide⟩

/-- C2: with the per-user cap set to `m`, a not yet logged event with a positive delta
that passes the global check is rejected (logged with increment 0, summary untouched)
when `userTotal + delta > m`, and accepted with the delta recorded verbatim otherwise. -/
theorem handleBooking_per_user_limit (cfg : Config) (profile : String → String) (s : Sheets)
    (event : Event) (m : Int) (hcap : cfg.MAX_SEATS_PER_USER = some m)
    (hnew : isMessageAlreadyLogged s event.messageId = false)
    (hpos : 0 < parseIncrement event.text)
    (hglobal : getCurrentBookingTotal s + parseIncrement event.text ≤ cfg.MAX_SEATS) :
    (getCurrentUserBookings s event.userId + parseIncrement event.text > m →
      handleBooking cfg profile s event =
        rejected profile s event
          (Reply.userLimit (getCurrentUserBookings s event.userId) (some m))) ∧
    (getCurrentUserBookings s event.userId + parseIncrement event.text ≤ m →
      handleBooking cfg profile s event = accepted profile s event) := by
  have hneg : ¬ parseIncrement event.text < 0 := by omega
  have hngt : ¬ getCurrentBookingTotal s + parseIncrement event.text > cfg.MAX_SEATS := by
    omega
  rw [handleBooking_of_new cfg profile s event hnew, if_neg hneg, if_neg hngt, hcap]
  constructor
  · intro hgt
    have : jsGt (getCurrentUserBookings s event.userId + parseIncrement event.text) (some m)
        = true := by simp [jsGt, hgt]
    rw [if_pos this]
  · intro hle
    have : ¬ jsGt (getCurrentUserBookings s event.userId + parseIncrement event.text) (some m)
        = true := by simp [jsGt, hle]
    rw [if_neg this]

/-- C2, at the sample data: with a cap of 4 and a user total of 3, +2 is rejected and +1 is
accepted. -/
theorem handleBooking_per_user_limit_witness :
    getCurrentUserBookings sheetsThree (some "U1") = 3 ∧
    handleBooking configCapFour sampleProfile sheetsThree (sampleEvent "U1" "+2" "m2") =
      rejected sampleProfile sheetsThree (sampleEvent "U1" "+2" "m2")
        (Reply.userLimit 3 (some 4)) ∧
    handleBooking configCapFour sampleProfile sheetsThree (sampleEvent "U1" "+1" "m2") =
      accepted sampleProfile sheetsThree (sampleEvent "U1" "+1" "m2") ∧
    getCurrentUserBookings
      (handleBooking configCapFour sampleProfile sheetsThree
        (sampleEvent "U1" "+1" "m2")).sheets (some "U1") = 4 :=
  ⟨by decide,
    (handleBooking_per_user_limit configCapFour sampleProfile sheetsThree
      (sampleEvent "U1" "+2" "m2") 4 rfl (by decide) (by decide) (by decide)).1 (by decide),
    (handleBooking_per_user_limit configCapFour sampleProfile sheetsThree
      (sampleEvent "U1" "+1" "m2") 4 rfl (by decide) (by decide) (by decide)).2 (by decide),
    by decide⟩

/-- C3: the shipped `CONFIG` has no per-user cap, and `handleBooking` then accepts and
records a +4 of a user who already holds 3 seats, whose total becomes 7: the unset cap
acts as no limit. -/
theorem handleBooking_unset_cap_accepts :
    CONFIG.MAX_SEATS_PER_USER = none ∧
    getCurrentUserBookings sheetsThree (some "U1") = 3 ∧
    handleBooking CONFIG sampleProfile sheetsThree (sampleEvent "U1" "+4" "m2") =
      accepted sampleProfile sheetsThree (sampleEvent "U1" "+4" "m2") ∧
    (handleBooking CONFIG sampleProfile sheetsThree (sampleEvent "U1" "+4" "m2")).reply =
      some (Reply.recorded true 4 7) ∧
    getCurrentUserBookings
      (handleBooking CONFIG sampleProfile sheetsThree
        (sampleEvent "U1" "+4" "m2")).sheets (some "U1") = 7 := by
  refine ⟨rfl, ?_, ?_, ?_, ?_⟩ <;> decide

/-- C4: a not yet logged event with a negative delta is rejected (logged with increment
0, summary untouched) if and only if `-delta > userTotal`; otherwise the delta is
recorded verbatim and the summary is recomputed from the log. -/
theorem handleBooking_cancellation (cfg : Config) (profile : String → String) (s : Sheets)
    (event : Event) (hnew : isMessageAlreadyLogged s event.messageId = false)
    (hneg : parseIncrement event.text < 0) :
    (- parseIncrement event.text > getCurrentUserBookings s event.userId →
      handleBooking cfg profile s event =
        rejected profile s event
          (Reply.cannotCancel (getCurrentUserBookings s event.userId))) ∧
    (¬ - parseIncrement event.text > getCurrentUserBookings s event.userId →
      handleBooking cfg profile s event = accepted profile s event) ∧
    ((handleBooking cfg profile s event).sheets =
        { raw := s.raw ++ [eventRow profile event 0], summary := s.summary } ↔
      - parseIncrement event.text > getCurrentUserBookings s event.userId) := by
  have habs : (Int.natAbs (parseIncrement event.text) : Int) = - parseIncrement event.text := by
    omega
  rw [handleBooking_of_new cfg profile s event hnew, if_pos hneg, habs]
  refine ⟨fun h => by rw [if_pos h], fun h => by rw [if_neg h], ?_⟩
  by_cases h : - parseIncrement event.text > getCurrentUserBookings s event.userId
  · rw [if_pos h]
    simp [rejected, h]
  · rw [if_neg h]
    simp only [accepted, h, iff_false]
    intro heq
    have h1 := congrArg Sheets.raw heq
    simp only [List.append_cancel_left_eq, List.cons.injEq, and_true] at h1
    have h2 := congrArg RawRow.increment h1
    simp only [eventRow] at h2
    omega

/-- C4, at the sample data: with a user total of 2, -3 is rejected; -2 is accepted, the
user then has total 0 and no row in the summary. -/
theorem handleBooking_cancellation_witness :
    getCurrentUserBookings sheetsTwo (some "U1") = 2 ∧
    handleBooking CONFIG sampleProfile sheetsTwo (sampleEvent "U1" "-3" "m2") =
      rejected sampleProfile sheetsTwo (sampleEvent "U1" "-3" "m2") (Reply.cannotCancel 2) ∧
    handleBooking CONFIG sampleProfile sheetsTwo (sampleEvent "U1" "-2" "m2") =
      accepted sampleProfile sheetsTwo (sampleEvent "U1" "-2" "m2") ∧
    userSum (handleBooking CONFIG sampleProfile sheetsTwo
      (sampleEvent "U1" "-2" "m2")).sheets.raw "U1" = 0 ∧
    (handleBooking CONFIG sampleProfile sheetsTwo
      (sampleEvent "U1" "-2" "m2")).sheets.summary = [] ∧
    getCurrentUserBookings (handleBooking CONFIG sampleProfile sheetsTwo
      (sampleEvent "U1" "-2" "m2")).sheets (some "U1") = 0 :=
  ⟨by decide,
    (handleBooking_cancellation CONFIG sampleProfile sheetsTwo
      (sampleEvent "U1" "-3" "m2") (by decide) (by decide)).1 (by decide),
    (handleBooking_cancellation CONFIG sampleProfile sheetsTwo
      (sampleEvent "U1" "-2" "m2") (by decide) (by decide)).2.1 (by decide),
    by decide, by decide, by decide⟩

/-! ## The raw log -/

theorem isMessageAlreadyLogged_logRawMessage (s : Sheets) (b : BookingInfo) :
    isMessageAlreadyLogged (logRawMessage s b) b.messageId = true := by
  by_cases h : isMessageAlreadyLogged s b.messageId = true
  · simp [logRawMessage, h]
  · simp [logRawMessage, h]
    simp [isMessageAlreadyLogged, BookingInfo.toRow]

theorem userSum_append (raw1 raw2 : List RawRow) (u : String) :
    userSum (raw1 ++ raw2) u = userSum raw1 u + userSum raw2 u := by
  simp [userSum]

theorem userSum_append_zero (raw : List RawRow) (row : RawRow) (u : String)
    (h : row.increment = 0) : userSum (raw ++ [row]) u = userSum raw u := by
  rw [userSum_append]
  by_cases hu : row.userId = u <;> simp [userSum, hu, h]

/-- C7: `logRawMessage` does nothing when the message id is already in the log; hence a
second call with a record of the same message id adds no row, and the summary
recomputed from the log is the same as after the first call. -/
theorem logRawMessage_idempotent (s : Sheets) (b b2 : BookingInfo)
    (hid : b2.messageId = b.messageId) :
    (isMessageAlreadyLogged s b.messageId = true → logRawMessage s b = s) ∧
    logRawMessage (logRawMessage s b) b2 = logRawMessage s b ∧
    recalculateBookingSummary (logRawMessage (logRawMessage s b) b2) =
      recalculateBookingSummary (logRawMessage s b) ∧
    (∀ u, userSum (logRawMessage (logRawMessage s b) b2).raw u =
      userSum (logRawMessage s b).raw u) := by
  have h2 : logRawMessage (logRawMessage s b) b2 = logRawMessage s b := by
    have := isMessageAlreadyLogged_logRawMessage s b
    rw [← hid] at this
    conv_lhs => rw [logRawMessage, if_pos this]
  refine ⟨fun h => by simp [logRawMessage, h], h2, by rw [h2], fun u => by rw [h2]⟩

/-- C7, at the sample data: logging the message m3 twice leaves one row for it. -/
theorem logRawMessage_idempotent_witness :
    logRawMessage (logRawMessage sheetsEight
        (mkBookingInfo sampleProfile (sampleEvent "U3" "+1" "m3") 1))
        (mkBookingInfo sampleProfile (sampleEvent "U3" "+2" "m3") 2) =
      { raw := rawEight ++ [eventRow sampleProfile (sampleEvent "U3" "+1" "m3") 1]
        summary := sheetsEight.summary } :=
  ((logRawMessage_idempotent sheetsEight
      (mkBookingInfo sampleProfile (sampleEvent "U3" "+1" "m3") 1)
      (mkBookingInfo sampleProfile (sampleEvent "U3" "+2" "m3") 2) rfl).2.1).trans
    (by decide)

/-- C8: on each of the three rejection paths of `handleBooking` (cancelling more than
held, global capacity exceeded, per-user limit exceeded) a rejection is replied, exactly
one row is appended to the raw log, with increment 0 and the other fields of the event,
the summary is untouched, so the user totals and the grand total read from it are the
same as before, and so is every user's sum of logged increments. -/
theorem handleBooking_rejection_audit (cfg : Config) (profile : String → String) (s : Sheets)
    (event : Event) (hnew : isMessageAlreadyLogged s event.messageId = false)
    (hpath :
      (parseIncrement event.text < 0 ∧
        - parseIncrement event.text > getCurrentUserBookings s event.userId) ∨
      (0 ≤ parseIncrement event.text ∧
        getCurrentBookingTotal s + parseIncrement event.text > cfg.MAX_SEATS) ∨
      (0 ≤ parseIncrement event.text ∧
        getCurrentBookingTotal s + parseIncrement event.text ≤ cfg.MAX_SEATS ∧
        ∃ m, cfg.MAX_SEATS_PER_USER = some m ∧
          getCurrentUserBookings s event.userId + parseIncrement event.text > m)) :
    (∃ r, (handleBooking cfg profile s event).reply = some r ∧ r.isRejection = true) ∧
    (handleBooking cfg profile s event).sheets.raw = s.raw ++ [eventRow profile event 0] ∧
    (eventRow profile event 0).increment = 0 ∧
    (handleBooking cfg profile s event).sheets.summary = s.summary ∧
    (∀ u, getCurrentUserBookings (handleBooking cfg profile s event).sheets u =
      getCurrentUserBookings s u) ∧
    getCurrentBookingTotal (handleBooking cfg profile s event).sheets =
      getCurrentBookingTotal s ∧
    (∀ u, userSum (handleBooking cfg profile s event).sheets.raw u = userSum s.raw u) := by
  have key : ∃ r, handleBooking cfg profile s event = rejected profile s event r ∧
      r.isRejection = true := by
    rw [handleBooking_of_new cfg profile s event hnew]
    rcases hpath with ⟨h1, h2⟩ | ⟨h1, h2⟩ | ⟨h1, h2, m, hm, h3⟩
    · have habs : (Int.natAbs (parseIncrement event.text) : Int) =
          - parseIncrement event.text := by omega
      rw [if_pos h1, habs, if_pos h2]
      exact ⟨_, rfl, rfl⟩
    · rw [if_neg (by omega), if_pos h2]
      exact ⟨_, rfl, rfl⟩
    · have : jsGt (getCurrentUserBookings s event.userId + parseIncrement event.text)
          cfg.MAX_SEATS_PER_USER = true := by simp [jsGt, hm, h3]
      rw [if_neg (by omega), if_neg (by omega), if_pos this]
      exact ⟨_, rfl, rfl⟩
  obtain ⟨r, hr, hrej⟩ := key
  rw [hr]
  refine ⟨⟨r, rfl, hrej⟩, rfl, rfl, rfl, fun u => rfl, rfl, fun u => ?_⟩
  exact userSum_append_zero _ _ _ rfl

/-- C8, at the sample data: the +2 of a user who holds 3 of at most 4 seats. -/
theorem handleBooking_rejection_audit_witness :
    (handleBooking configCapFour sampleProfile sheetsThree
        (sampleEvent "U1" "+2" "m2")).sheets.raw =
      rawThree ++ [eventRow sampleProfile (sampleEvent "U1" "+2" "m2") 0] ∧
    getCurrentBookingTotal (handleBooking configCapFour sampleProfile sheetsThree
        (sampleEvent "U1" "+2" "m2")).sheets = 3 :=
  ⟨(handleBooking_rejection_audit configCapFour sampleProfile sheetsThree
      (sampleEvent "U1" "+2" "m2") (by decide)
      (Or.inr (Or.inr ⟨by decide, by decide, 4, rfl, by decide⟩))).2.1,
    ((handleBooking_rejection_audit configCapFour sampleProfile sheetsThree
      (sampleEvent "U1" "+2" "m2") (by decide)
      (Or.inr (Or.inr ⟨by decide, by decide, 4, rfl, by decide⟩))).2.2.2.2.2.1).trans
      (by decide)⟩

/-! ## The map of `recalculateBookingSummary` -/

theorem Bookings.has_eq_isSome (b : Bookings) (u : String) :
    b.has u = (b.get? u).isSome := by
  induction b with
  | nil => rfl
  | cons e rest ih =>
    obtain ⟨k, i⟩ := e
    simp only [Bookings.has] at ih ⊢
    by_cases h : k = u <;> simp [Bookings.get?, h, ih]

theorem Bookings.has_iff_mem_keys (b : Bookings) (u : String) :
    b.has u = true ↔ u ∈ b.map Prod.fst := by
  simp only [Bookings.has, List.any_eq_true, decide_eq_true_eq, List.mem_map]

theorem Bookings.get?_update (b : Bookings) (row : RawRow) (u : String) :
    (b.update row).get? u =
      if row.userId = u then (b.get? u).map (fun existing => existing.absorb row)
      else b.get? u := by
  induction b with
  | nil => simp [Bookings.update, Bookings.get?]
  | cons e rest ih =>
    obtain ⟨k, i⟩ := e
    by_cases hk : k = row.userId
    · by_cases hu : row.userId = u
      · simp [Bookings.update, Bookings.get?, hk, hu]
      · have : ¬ k = u := by rw [hk]; exact hu
        simp [Bookings.update, Bookings.get?, hk, hu]
    · by_cases hu : row.userId = u
      · have : ¬ k = u := by rw [← hu]; exact hk
        simp only [Bookings.update, Bookings.get?, hk, this, if_false, ih, hu, if_true]
      · simp only [Bookings.update, Bookings.get?, hk, if_false, ih, hu]

theorem Bookings.get?_append_single (b : Bookings) (k : String) (i : Info) (u : String) :
    Bookings.get? (b ++ [(k, i)]) u =
      match b.get? u with
      | some x => some x
      | none => if k = u then some i else none := by
  induction b with
  | nil => simp [Bookings.get?]
  | cons e rest ih =>
    obtain ⟨k1, i1⟩ := e
    by_cases h : k1 = u
    · simp [Bookings.get?, h]
    · simp only [List.cons_append, Bookings.get?, h, if_false]
      exact ih

theorem get?_processRow (b : Bookings) (row : RawRow) (u : String) :
    (processRow b row).get? u =
      if row.userId = u then
        some (match b.get? u with
          | some existing => existing.absorb row
          | none => Info.first row)
      else b.get? u := by
  unfold processRow
  by_cases hhas : b.has row.userId = true
  · rw [if_pos hhas, Bookings.get?_update]
    by_cases hu : row.userId = u
    · subst hu
      rw [Bookings.has_eq_isSome] at hhas
      obtain ⟨x, hx⟩ := Option.isSome_iff_exists.mp hhas
      simp [hx]
    · simp [hu]
  · rw [if_neg hhas, Bookings.get?_append_single]
    by_cases hu : row.userId = u
    · subst hu
      rw [Bookings.has_eq_isSome] at hhas
      have hx : b.get? row.userId = none := by
        cases h : b.get? row.userId with
        | none => rfl
        | some x => simp [h] at hhas
      simp [hx]
    · simp only [hu, if_false]
      cases b.get? u <;> rfl

theorem Bookings.keys_update (b : Bookings) (row : RawRow) :
    (b.update row).map Prod.fst = b.map Prod.fst := by
  induction b with
  | nil => rfl
  | cons e rest ih =>
    obtain ⟨k, i⟩ := e
    by_cases hk : k = row.userId
    · simp [Bookings.update, hk]
    · simp [Bookings.update, hk, ih]

theorem keys_processRow (b : Bookings) (row : RawRow) :
    (processRow b row).map Prod.fst =
      if b.has row.userId then b.map Prod.fst else b.map Prod.fst ++ [row.userId] := by
  unfold processRow
  by_cases hhas : b.has row.userId = true
  · rw [if_pos hhas, if_pos hhas, Bookings.keys_update]
  · rw [if_neg hhas, if_neg hhas]
    simp

theorem aggregate_append (raw : List RawRow) (row : RawRow) :
    aggregate (raw ++ [row]) = processRow (aggregate raw) row := by
  simp [aggregate, List.foldl_append]

theorem nodup_keys_aggregate (raw : List RawRow) :
    ((aggregate raw).map Prod.fst).Nodup := by
  induction raw using List.reverseRecOn with
  | nil => simp [aggregate]
  | append_singleton raw row ih =>
    rw [aggregate_append, keys_processRow]
    by_cases hhas : (aggregate raw).has row.userId = true
    · rw [if_pos hhas]
      exact ih
    · rw [if_neg hhas]
      have : row.userId ∉ (aggregate raw).map Prod.fst := fun h =>
        hhas ((Bookings.has_iff_mem_keys _ _).mpr h)
      exact List.Nodup.append ih (List.nodup_singleton _) (by simpa using this)

theorem mem_keys_aggregate (raw : List RawRow) (u : String) :
    u ∈ (aggregate raw).map Prod.fst ↔ u ∈ raw.map (fun row => row.userId) := by
  induction raw using List.reverseRecOn generalizing u with
  | nil => simp [aggregate]
  | append_singleton raw row ih =>
    rw [aggregate_append, keys_processRow]
    by_cases hhas : (aggregate raw).has row.userId = true
    · rw [if_pos hhas]
      have hmem := (Bookings.has_iff_mem_keys _ _).mp hhas
      rw [ih] at hmem
      rw [ih]
      simp only [List.map_append, List.map_cons, List.map_nil, List.mem_append,
        List.mem_singleton]
      constructor
      · exact Or.inl
      · rintro (h | h)
        · exact h
        · rw [h]; exact hmem
    · rw [if_neg hhas]
      simp only [List.mem_append, List.mem_singleton, List.map_append, List.map_cons,
        List.map_nil, ih]

theorem Bookings.mem_of_get? (b : Bookings) (u : String) (i : Info)
    (h : b.get? u = some i) : (u, i) ∈ b := by
  induction b with
  | nil => simp [Bookings.get?] at h
  | cons e rest ih =>
    obtain ⟨k, i1⟩ := e
    by_cases hk : k = u
    · simp only [Bookings.get?, hk, if_true, Option.some.injEq] at h
      simp [hk, h]
    · simp only [Bookings.get?, hk, if_false] at h
      exact List.mem_cons_of_mem _ (ih h)

theorem Bookings.get?_of_mem (b : Bookings) (u : String) (i : Info)
    (hnd : (b.map Prod.fst).Nodup) (h : (u, i) ∈ b) : b.get? u = some i := by
  induction b with
  | nil => simp at h
  | cons e rest ih =>
    obtain ⟨k, i1⟩ := e
    simp only [List.map_cons, List.nodup_cons] at hnd
    rcases List.mem_cons.mp h with heq | hmem
    · simp only [Prod.mk.injEq] at heq
      simp [Bookings.get?, heq.1, heq.2]
    · have hk : ¬ k = u := by
        intro hku
        apply hnd.1
        rw [hku]
        exact List.mem_map.mpr ⟨(u, i), hmem, rfl⟩
      simp only [Bookings.get?, hk, if_false]
      exact ih hnd.2 hmem

theorem userSum_single (row : RawRow) (u : String) :
    userSum [row] u = if row.userId = u then row.increment else 0 := by
  by_cases h : row.userId = u <;> simp [userSum, h]

theorem userSum_of_not_mem (raw : List RawRow) (u : String)
    (h : u ∉ raw.map (fun row => row.userId)) : userSum raw u = 0 := by
  have : raw.filter (fun row => decide (row.userId = u)) = [] := by
    rw [List.filter_eq_nil_iff]
    intro row hrow hu
    apply h
    simp only [decide_eq_true_eq] at hu
    exact List.mem_map.mpr ⟨row, hrow, hu⟩
  simp [userSum, this]

theorem describes_absorb (raw : List RawRow) (row : RawRow) (existing : Info)
    (h : Describes raw row.userId existing) :
    Describes (raw ++ [row]) row.userId (existing.absorb row) := by
  obtain ⟨htot, ⟨first, hfirst, hname, hgroup⟩, ⟨r, hr, hru, hrt⟩, hmax⟩ := h
  refine ⟨?_, ⟨first, ?_, hname, hgroup⟩, ?_, ?_⟩
  · simp [Info.absorb, userSum_append, userSum_single, htot]
  · simp [List.find?_append, hfirst]
  · by_cases hlt : row.timestamp > existing.timestamp
    · exact ⟨row, by simp, rfl, by simp [Info.absorb, hlt]⟩
    · exact ⟨r, List.mem_append_left _ hr, hru, by simp [Info.absorb, hlt, hrt]⟩
  · intro r2 hr2 hu2
    have hge : existing.timestamp ≤ (existing.absorb row).timestamp := by
      simp only [Info.absorb]
      split_ifs <;> omega
    have hrow : row.timestamp ≤ (existing.absorb row).timestamp := by
      simp only [Info.absorb]
      split_ifs <;> omega
    rcases List.mem_append.mp hr2 with h1 | h1
    · exact le_trans (hmax r2 h1 hu2) hge
    · rw [List.mem_singleton.mp h1]
      exact hrow

theorem describes_first (raw : List RawRow) (row : RawRow)
    (h : row.userId ∉ raw.map (fun r => r.userId)) :
    Describes (raw ++ [row]) row.userId (Info.first row) := by
  have hnone : raw.find? (fun r => decide (r.userId = row.userId)) = none := by
    rw [List.find?_eq_none]
    intro r hr hu
    apply h
    simp only [decide_eq_true_eq] at hu
    exact List.mem_map.mpr ⟨r, hr, hu⟩
  refine ⟨?_, ⟨row, ?_, rfl, rfl⟩, ⟨row, by simp, rfl, rfl⟩, ?_⟩
  · simp [Info.first, userSum_append, userSum_single, userSum_of_not_mem raw _ h]
  · simp [List.find?_append, hnone]
  · intro r2 hr2 hu2
    rcases List.mem_append.mp hr2 with h1 | h1
    · exact absurd (List.mem_map.mpr ⟨r2, h1, hu2⟩) h
    · rw [List.mem_singleton.mp h1]
      exact le_refl _

theorem describes_other (raw : List RawRow) (row : RawRow) (u : String) (info : Info)
    (hu : ¬ row.userId = u) (h : Describes raw u info) :
    Describes (raw ++ [row]) u info := by
  obtain ⟨htot, ⟨first, hfirst, hname, hgroup⟩, ⟨r, hr, hru, hrt⟩, hmax⟩ := h
  refine ⟨?_, ⟨first, ?_, hname, hgroup⟩, ⟨r, List.mem_append_left _ hr, hru, hrt⟩, ?_⟩
  · simp [userSum_append, userSum_single, hu, htot]
  · simp [List.find?_append, hfirst]
  · intro r2 hr2 hu2
    rcases List.mem_append.mp hr2 with h1 | h1
    · exact hmax r2 h1 hu2
    · rw [List.mem_singleton.mp h1] at hu2
      exact absurd hu2 hu

/-- The map after the `forEach`, entry by entry. -/
theorem aggregate_spec (raw : List RawRow) (u : String) :
    match (aggregate raw).get? u with
    | some info => Describes raw u info
    | none => u ∉ raw.map (fun row => row.userId) := by
  induction raw using List.reverseRecOn generalizing u with
  | nil => simp [aggregate, Bookings.get?]
  | append_singleton raw row ih =>
    rw [aggregate_append, get?_processRow]
    by_cases hu : row.userId = u
    · subst hu
      rw [if_pos rfl]
      have ih1 := ih row.userId
      cases hget : (aggregate raw).get? row.userId with
      | some existing =>
        rw [hget] at ih1
        exact describes_absorb raw row existing ih1
      | none =>
        rw [hget] at ih1
        exact describes_first raw row ih1
    · rw [if_neg hu]
      have ih1 := ih u
      cases hget : (aggregate raw).get? u with
      | some info =>
        rw [hget] at ih1
        exact describes_other raw row u info hu ih1
      | none =>
        rw [hget] at ih1
        simp only [List.map_append, List.map_cons, List.map_nil, List.mem_append,
          List.mem_singleton, not_or]
        exact ⟨ih1, fun h => hu h.symm⟩

theorem get?_aggregate_of_mem (raw : List RawRow) (u : String)
    (h : u ∈ raw.map (fun row => row.userId)) :
    ∃ info, (aggregate raw).get? u = some info ∧ Describes raw u info := by
  have hspec := aggregate_spec raw u
  cases hget : (aggregate raw).get? u with
  | some info =>
    rw [hget] at hspec
    exact ⟨info, rfl, hspec⟩
  | none =>
    rw [hget] at hspec
    exact absurd h hspec

theorem accumulated_eq_userSum (raw : List RawRow) (u : String) :
    accumulated raw u = userSum raw u := by
  have hspec := aggregate_spec raw u
  unfold accumulated
  cases hget : (aggregate raw).get? u with
  | some info =>
    rw [hget] at hspec
    exact hspec.1
  | none =>
    rw [hget] at hspec
    exact (userSum_of_not_mem raw u hspec).symm

/-! ## The summary sheet -/

theorem mem_summaryData (raw : List RawRow) (row : SummaryRow) :
    row ∈ summaryData raw ↔
      ∃ info, (aggregate raw).get? row.userId = some info ∧
        row = toSummaryRow (row.userId, info) ∧ 0 < info.total := by
  unfold summaryData
  rw [(List.perm_insertionSort _ _).mem_iff, List.mem_filter, List.mem_map]
  constructor
  · rintro ⟨⟨⟨k, info⟩, hmem, rfl⟩, hpos⟩
    refine ⟨info, ?_, rfl, ?_⟩
    · exact Bookings.get?_of_mem _ _ _ (nodup_keys_aggregate raw) hmem
    · simpa [toSummaryRow] using hpos
  · rintro ⟨info, hget, hrow, hpos⟩
    refine ⟨⟨(row.userId, info), Bookings.mem_of_get? _ _ _ hget, hrow.symm⟩, ?_⟩
    rw [hrow]
    simpa [toSummaryRow] using hpos

theorem mem_summaryData_of_pos (raw : List RawRow) (u : String) (info : Info)
    (hget : (aggregate raw).get? u = some info) (hpos : 0 < info.total) :
    toSummaryRow (u, info) ∈ summaryData raw :=
  (mem_summaryData raw _).mpr ⟨info, hget, rfl, hpos⟩

theorem nodup_userIds_summaryData (raw : List RawRow) :
    ((summaryData raw).map (fun row => row.userId)).Nodup := by
  unfold summaryData
  rw [((List.perm_insertionSort _ _).map _).nodup_iff]
  have hsub : List.Sublist
      ((((aggregate raw).map toSummaryRow).filter
        (fun row => decide (row.totalSeats > 0))).map (fun row => row.userId))
      (((aggregate raw).map toSummaryRow).map (fun row => row.userId)) :=
    (List.filter_sublist _).map _
  have hkeys : ((aggregate raw).map toSummaryRow).map (fun row => row.userId) =
      (aggregate raw).map Prod.fst := by
    rw [List.map_map]
    rfl
  rw [hkeys] at hsub
  exact (nodup_keys_aggregate raw).sublist hsub

theorem foldl_totalSeats (l : List SummaryRow) (a : Int) :
    l.foldl (fun total row => total + row.totalSeats) a =
      a + (l.map (fun row => row.totalSeats)).sum := by
  induction l generalizing a with
  | nil => simp
  | cons row rest ih =>
    simp only [List.foldl_cons, ih, List.map_cons, List.sum_cons]
    omega

theorem getCurrentBookingTotal_eq_sum (s : Sheets) :
    getCurrentBookingTotal s = (s.summary.map (fun row => row.totalSeats)).sum := by
  simp [getCurrentBookingTotal, foldl_totalSeats]

theorem keys_perm_users (raw : List RawRow) :
    ((aggregate raw).map Prod.fst).Perm (users raw) := by
  unfold users
  rw [List.perm_ext_iff_of_nodup (nodup_keys_aggregate raw) (List.nodup_dedup _)]
  intro u
  rw [mem_keys_aggregate, List.mem_dedup]

theorem accumulated_of_mem (raw : List RawRow) (e : String × Info)
    (h : e ∈ aggregate raw) : accumulated raw e.1 = e.2.total := by
  unfold accumulated
  rw [Bookings.get?_of_mem _ e.1 e.2 (nodup_keys_aggregate raw) h]

theorem sum_summaryData (raw : List RawRow) :
    ((summaryData raw).map (fun row => row.totalSeats)).sum =
      (((users raw).filter (fun u => decide (0 < accumulated raw u))).map
        (accumulated raw)).sum := by
  have h1 : ((summaryData raw).map (fun row => row.totalSeats)).sum =
      ((((aggregate raw).map toSummaryRow).filter
        (fun row => decide (row.totalSeats > 0))).map (fun row => row.totalSeats)).sum :=
    ((List.perm_insertionSort _ _).map _).sum_eq
  have h2 : (((aggregate raw).map toSummaryRow).filter
        (fun row => decide (row.totalSeats > 0))).map (fun row => row.totalSeats) =
      (((aggregate raw).map Prod.fst).filter
        (fun u => decide (0 < accumulated raw u))).map (accumulated raw) := by
    rw [List.filter_map, List.filter_map, List.map_map, List.map_map]
    have hf : (aggregate raw).filter
          ((fun row => decide (row.totalSeats > 0)) ∘ toSummaryRow) =
        (aggregate raw).filter ((fun u => decide (0 < accumulated raw u)) ∘ Prod.fst) := by
      apply List.filter_congr
      intro e he
      simp [toSummaryRow, accumulated_of_mem raw e he]
    rw [hf]
    apply List.map_congr_left
    intro e he
    simp [toSummaryRow, accumulated_of_mem raw e (List.mem_of_mem_filter he)]
  rw [h1, h2]
  exact (((keys_perm_users raw).filter _).map _).sum_eq

/-- C5: for a user id that occurs in the raw log, the total accumulated by
`recalculateBookingSummary` is the sum of the increments of the rows of that user; if the
sum is positive the summary has a row of the user, and a summary row of the user always
carries that sum. -/
theorem recalculate_total_is_sum (s : Sheets) (u : String)
    (hu : u ∈ s.raw.map (fun row => row.userId)) :
    (∃ info, (aggregate s.raw).get? u = some info ∧ info.total = userSum s.raw u) ∧
    accumulated s.raw u = userSum s.raw u ∧
    (0 < userSum s.raw u →
      ∃ row ∈ (recalculateBookingSummary s).summary,
        row.userId = u ∧ row.totalSeats = userSum s.raw u) ∧
    (∀ row ∈ (recalculateBookingSummary s).summary,
      row.userId = u → row.totalSeats = userSum s.raw u) := by
  obtain ⟨info, hget, hdesc⟩ := get?_aggregate_of_mem s.raw u hu
  refine ⟨⟨info, hget, hdesc.1⟩, accumulated_eq_userSum _ _, ?_, ?_⟩
  · intro hpos
    refine ⟨toSummaryRow (u, info), ?_, rfl, hdesc.1⟩
    exact mem_summaryData_of_pos s.raw u info hget (by rw [hdesc.1]; exact hpos)
  · intro row hrow hru
    obtain ⟨info2, hget2, hrow2, _⟩ := (mem_summaryData s.raw row).mp hrow
    rw [hru, hget] at hget2
    rw [hrow2, ← Option.some.inj hget2]
    exact hdesc.1

/-- C5, at the sample data: U1 has rows +1 and +1, and the summary row of U1 carries 2. -/
theorem recalculate_total_is_sum_witness :
    accumulated rawRenamed "U1" = 1 + 1 ∧
    (∀ row ∈ (recalculateBookingSummary { raw := rawRenamed, summary := [] }).summary,
      row.userId = "U1" → row.totalSeats = 2) :=
  ⟨(recalculate_total_is_sum { raw := rawRenamed, summary := [] } "U1" (by decide)).2.1.trans
      (by decide),
    fun row hrow hu =>
      ((recalculate_total_is_sum { raw := rawRenamed, summary := [] } "U1"
        (by decide)).2.2.2 row hrow hu).trans (by decide)⟩

/-- C6: after `recalculateBookingSummary` the summary has a row of a user exactly when
the total accumulated for the user is positive, and at most one; the grand total of
`getCurrentBookingTotal` is the sum of the totals of the users with a positive total, so
a user with a total of 0 or less adds nothing to it; the raw log keeps all its rows. -/
theorem summary_holds_positive_totals (s : Sheets) :
    (∀ u, (∃ row ∈ (recalculateBookingSummary s).summary, row.userId = u) ↔
      0 < accumulated s.raw u) ∧
    ((recalculateBookingSummary s).summary.map (fun row => row.userId)).Nodup ∧
    (∀ row ∈ (recalculateBookingSummary s).summary,
      row.totalSeats = accumulated s.raw row.userId) ∧
    getCurrentBookingTotal (recalculateBookingSummary s) =
      (((users s.raw).filter (fun u => decide (0 < accumulated s.raw u))).map
        (accumulated s.raw)).sum ∧
    (recalculateBookingSummary s).raw = s.raw := by
  refine ⟨fun u => ?_, nodup_userIds_summaryData s.raw, ?_, ?_, rfl⟩
  · constructor
    · rintro ⟨row, hrow, rfl⟩
      obtain ⟨info, hget, _, hpos⟩ := (mem_summaryData s.raw row).mp hrow
      simp [accumulated, hget, hpos]
    · intro hpos
      unfold accumulated at hpos
      cases hget : (aggregate s.raw).get? u with
      | some info =>
        rw [hget] at hpos
        exact ⟨toSummaryRow (u, info), mem_summaryData_of_pos s.raw u info hget hpos, rfl⟩
      | none =>
        rw [hget] at hpos
        exact absurd hpos (lt_irrefl 0)
  · intro row hrow
    obtain ⟨info, hget, hrow2, _⟩ := (mem_summaryData s.raw row).mp hrow
    rw [accumulated, hget]
    conv_lhs => rw [hrow2]
    rfl
  · rw [getCurrentBookingTotal_eq_sum]
    exact sum_summaryData s.raw

/-- C10, as stated, fails: U1 books as Ann from group G1 and then as Annie from group
G2; the summary row of U1 carries Ann and G1, not the name and group of the last row. -/
theorem summary_last_name_counterexample :
    0 < userSum rawRenamed "U1" ∧
    (rawRenamed.filter (fun row => decide (row.userId = "U1"))).getLast? =
      some { timestamp := 2000, groupId := "G2", userId := "U1", userName := "Annie",
             increment := 1, messageId := "m2" } ∧
    (recalculateBookingSummary { raw := rawRenamed, summary := [] }).summary =
      [{ lastUpdate := 2000, groupId := "G1", userId := "U1", userName := "Ann",
         totalSeats := 2 }] ∧
    ¬ ∃ row ∈ (recalculateBookingSummary { raw := rawRenamed, summary := [] }).summary,
      row.userId = "U1" ∧ row.userName = "Annie" ∧ row.groupId = "G2" := by
  decide

/-- C10, amended: for a user with a positive total the summary has exactly one row, which
carries the user name and the group id of the FIRST row of the user in log order, and as
Last Update the greatest timestamp over the rows of the user. -/
theorem summary_row_first_name_max_timestamp (s : Sheets) (u : String)
    (hpos : 0 < userSum s.raw u) :
    ∃ first row, s.raw.find? (fun r => decide (r.userId = u)) = some first ∧
      row ∈ (recalculateBookingSummary s).summary ∧ row.userId = u ∧
      row.userName = first.userName ∧ row.groupId = first.groupId ∧
      (∃ r ∈ s.raw, r.userId = u ∧ r.timestamp = row.lastUpdate) ∧
      (∀ r ∈ s.raw, r.userId = u → r.timestamp ≤ row.lastUpdate) ∧
      (∀ row2 ∈ (recalculateBookingSummary s).summary, row2.userId = u → row2 = row) := by
  have hu : u ∈ s.raw.map (fun row => row.userId) := by
    by_contra hnot
    rw [userSum_of_not_mem s.raw u hnot] at hpos
    exact lt_irrefl 0 hpos
  obtain ⟨info, hget, htot, ⟨first, hfirst, hname, hgroup⟩, hex, hmax⟩ :=
    get?_aggregate_of_mem s.raw u hu
  refine ⟨first, toSummaryRow (u, info), hfirst, ?_, rfl, hname, hgroup, hex, hmax, ?_⟩
  · exact mem_summaryData_of_pos s.raw u info hget (by rw [htot]; exact hpos)
  · intro row2 hrow2 hu2
    obtain ⟨info2, hget2, heq2, _⟩ := (mem_summaryData s.raw row2).mp hrow2
    rw [hu2, hget] at hget2
    rw [heq2, hu2, ← Option.some.inj hget2]

/-- C10, amended, at the sample data: the summary row of U1 carries Ann, G1 and 2000. -/
theorem summary_row_first_name_max_timestamp_witness :
    ∃ first row, rawRenamed.find? (fun r => decide (r.userId = "U1")) = some first ∧
      row ∈ summaryData rawRenamed ∧ row.userId = "U1" ∧
      row.userName = first.userName ∧ row.groupId = first.groupId ∧
      (∃ r ∈ rawRenamed, r.userId = "U1" ∧ r.timestamp = row.lastUpdate) ∧
      (∀ r ∈ rawRenamed, r.userId = "U1" → r.timestamp ≤ row.lastUpdate) ∧
      (∀ row2 ∈ summaryData rawRenamed, row2.userId = "U1" → row2 = row) :=
  summary_row_first_name_max_timestamp { raw := rawRenamed, summary := [] } "U1" (by decide)

/-! ## The router and the delta -/

/-- C9: the text " +1" is routed to `handleBooking` by `doPost`, which trims it first,
while `handleBooking` parses the untrimmed text to the delta 0, passes every check with
it, logs a row with increment 0 and replies that 0 seats were cancelled. -/
theorem booking_delta_of_padded_text :
    route CONFIG " +1" = Route.booking ∧
    parseIncrement (sampleEvent "U1" " +1" "m2").text = 0 ∧
    (handleBooking CONFIG sampleProfile sheetsThree (sampleEvent "U1" " +1" "m2")).sheets.raw =
      rawThree ++ [eventRow sampleProfile (sampleEvent "U1" " +1" "m2") 0] ∧
    (handleBooking CONFIG sampleProfile sheetsThree (sampleEvent "U1" " +1" "m2")).reply =
      some (Reply.recorded false 0 3) := by
  decide

/-! ## Duplicates and the message ids of the log -/

theorem isMessageAlreadyLogged_of_mem (s : Sheets) (messageId : String)
    (h : messageId ∈ s.raw.map (fun row => row.messageId)) :
    isMessageAlreadyLogged s messageId = true := by
  unfold isMessageAlreadyLogged
  simp only [List.contains_eq_any_beq, List.any_eq_true, beq_iff_eq]
  exact ⟨messageId, List.mem_cons_of_mem _ h, rfl⟩

theorem not_mem_of_not_logged (s : Sheets) (messageId : String)
    (h : isMessageAlreadyLogged s messageId = false) :
    messageId ∉ s.raw.map (fun row => row.messageId) := by
  intro hmem
  rw [isMessageAlreadyLogged_of_mem s messageId hmem] at h
  exact Bool.noConfusion h

/-- The three shapes of the outcome of `handleBooking`. -/
theorem handleBooking_cases (cfg : Config) (profile : String → String) (s : Sheets)
    (event : Event) :
    handleBooking cfg profile s event = { sheets := s, reply := none } ∨
    (isMessageAlreadyLogged s event.messageId = false ∧
      ((∃ r, handleBooking cfg profile s event = rejected profile s event r) ∨
        handleBooking cfg profile s event = accepted profile s event)) := by
  cases hlog : isMessageAlreadyLogged s event.messageId with
  | true => exact Or.inl (handleBooking_of_logged cfg profile s event hlog)
  | false =>
    refine Or.inr ⟨rfl, ?_⟩
    rw [handleBooking_of_new cfg profile s event hlog]
    split_ifs
    · exact Or.inl ⟨_, rfl⟩
    · exact Or.inr rfl
    · exact Or.inl ⟨_, rfl⟩
    · exact Or.inl ⟨_, rfl⟩
    · exact Or.inr rfl

/-- A property of the sheets that every call of `handleBooking` keeps holds after any
sequence of calls. -/
theorem runBookings_induction (cfg : Config) (P : Sheets → Prop)
    (hstep : ∀ s profile event, P s → P (handleBooking cfg profile s event).sheets)
    (calls : List Call) : ∀ s, P s → P (runBookings cfg s calls) := by
  induction calls with
  | nil => exact fun s h => h
  | cons call rest ih =>
    intro s h
    exact ih _ (hstep s call.profile call.event h)

/-- C11: an event whose message id is in the raw log is dropped by `handleBooking`: the
raw log and the summary stay as they are and no reply is sent. -/
theorem handleBooking_duplicate_dropped (cfg : Config) (profile : String → String)
    (s : Sheets) (event : Event)
    (hdup : event.messageId ∈ s.raw.map (fun row => row.messageId)) :
    (handleBooking cfg profile s event).sheets.raw = s.raw ∧
    (handleBooking cfg profile s event).sheets.summary = s.summary ∧
    (handleBooking cfg profile s event).reply = none := by
  rw [handleBooking_of_logged cfg profile s event
    (isMessageAlreadyLogged_of_mem s event.messageId hdup)]
  exact ⟨rfl, rfl, rfl⟩

/-- C11, at the sample data: a second delivery of the message m1. -/
theorem handleBooking_duplicate_dropped_witness :
    (handleBooking CONFIG sampleProfile sheetsEight (sampleEvent "U1" "-4" "m1")).sheets.raw =
      rawEight ∧
    (handleBooking CONFIG sampleProfile sheetsEight
      (sampleEvent "U1" "-4" "m1")).sheets.summary = sheetsEight.summary ∧
    (handleBooking CONFIG sampleProfile sheetsEight (sampleEvent "U1" "-4" "m1")).reply =
      none :=
  handleBooking_duplicate_dropped CONFIG sampleProfile sheetsEight
    (sampleEvent "U1" "-4" "m1") (by decide)

/-- C12: after any sequence of calls of `handleBooking` that starts from an empty raw
log, no two rows of the raw log carry the same message id. -/
theorem runBookings_message_ids_nodup (cfg : Config) (summary : List SummaryRow)
    (calls : List Call) :
    ((runBookings cfg { raw := [], summary := summary } calls).raw.map
      (fun row => row.messageId)).Nodup := by
  apply runBookings_induction cfg
    (fun s => (s.raw.map (fun row => row.messageId)).Nodup)
  · intro s profile event hs
    have happend : ∀ increment,
        ((s.raw ++ [eventRow profile event increment]).map (fun row => row.messageId)) =
          s.raw.map (fun row => row.messageId) ++ [event.messageId] := by
      intro increment
      simp [eventRow]
    rcases handleBooking_cases cfg profile s event with h | ⟨hnew, ⟨r, h⟩ | h⟩
    · rw [h]
      exact hs
    · rw [h]
      show ((s.raw ++ [eventRow profile event 0]).map (fun row => row.messageId)).Nodup
      rw [happend]
      exact List.Nodup.append hs (List.nodup_singleton _)
        (by simpa using not_mem_of_not_logged s event.messageId hnew)
    · rw [h]
      show ((s.raw ++ [eventRow profile event (parseIncrement event.text)]).map
        (fun row => row.messageId)).Nodup
      rw [happend]
      exact List.Nodup.append hs (List.nodup_singleton _)
        (by simpa using not_mem_of_not_logged s event.messageId hnew)
  · exact List.nodup_nil

/-! ## The other handlers -/

/-- C15: after `dailyCleanup` the raw log has no rows, the summary has no rows and
`getCurrentBookingTotal` returns 0, whatever the sheets held before. -/
theorem dailyCleanup_empties (s : Sheets) :
    (dailyCleanup s).raw = [] ∧ (dailyCleanup s).summary = [] ∧
    getCurrentBookingTotal (dailyCleanup s) = 0 ∧
    (∀ u, getCurrentUserBookings (dailyCleanup s) u = 0) := by
  refine ⟨rfl, rfl, rfl, fun u => ?_⟩
  cases u with
  | none => rfl
  | some u =>
    show (if u = "User ID" then (0 : Int) else 0) = 0
    split_ifs <;> rfl

/-- C16: `handleStatusCheck` replies with the grand total, which is the sum of the seat
column of the summary, and with `MAX_SEATS` minus that total as the remaining seats; it
leaves the raw log and the summary as they are. -/
theorem handleStatusCheck_reports (cfg : Config) (s : Sheets) :
    (handleStatusCheck cfg s).reply =
      some (Reply.status (s.summary.map (fun row => row.totalSeats)).sum
        (cfg.MAX_SEATS - (s.summary.map (fun row => row.totalSeats)).sum)) ∧
    getCurrentBookingTotal s = (s.summary.map (fun row => row.totalSeats)).sum ∧
    (handleStatusCheck cfg s).sheets.raw = s.raw ∧
    (handleStatusCheck cfg s).sheets.summary = s.summary := by
  refine ⟨?_, getCurrentBookingTotal_eq_sum s, rfl, rfl⟩
  simp only [handleStatusCheck, getCurrentBookingTotal_eq_sum]

theorem filter_seats_orderedInsert (k : Int) (a : Booking) (l : List Booking) :
    (l.orderedInsert (fun a b => b.seats ≤ a.seats) a).filter
        (fun b => decide (b.seats = k)) =
      if a.seats = k then a :: l.filter (fun b => decide (b.seats = k))
      else l.filter (fun b => decide (b.seats = k)) := by
  induction l with
  | nil => by_cases h : a.seats = k <;> simp [h]
  | cons b l ih =>
    by_cases hr : b.seats ≤ a.seats
    · rw [List.orderedInsert, if_pos hr]
      by_cases h : a.seats = k <;> simp [List.filter_cons, h]
    · rw [List.orderedInsert, if_neg hr, List.filter_cons, ih]
      by_cases ha : a.seats = k
      · have hb : ¬ b.seats = k := by omega
        simp [ha, hb, List.filter_cons]
      · simp [ha, List.filter_cons]

theorem filter_seats_insertionSort (k : Int) (l : List Booking) :
    (l.insertionSort (fun a b => b.seats ≤ a.seats)).filter (fun b => decide (b.seats = k)) =
      l.filter (fun b => decide (b.seats = k)) := by
  induction l with
  | nil => rfl
  | cons a l ih =>
    rw [List.insertionSort, filter_seats_orderedInsert, ih, List.filter_cons]
    by_cases h : a.seats = k <;> simp [h]

theorem sorted_seats_insertionSort (l : List Booking) :
    (l.insertionSort (fun a b => b.seats ≤ a.seats)).Pairwise
      (fun a b => b.seats ≤ a.seats) := by
  haveI : IsTotal Booking (fun a b => b.seats ≤ a.seats) := ⟨fun a b => le_total _ _⟩
  haveI : IsTrans Booking (fun a b => b.seats ≤ a.seats) :=
    ⟨fun a b c hab hbc => le_trans hbc hab⟩
  exact List.sorted_insertionSort (fun a b => b.seats ≤ a.seats) l

theorem foldl_seats (l : List Booking) (a : Int) :
    l.foldl (fun sum booking => sum + booking.seats) a =
      a + (l.map (fun booking => booking.seats)).sum := by
  induction l generalizing a with
  | nil => simp
  | cons b rest ih =>
    simp only [List.foldl_cons, ih, List.map_cons, List.sum_cons]
    omega

/-- C14: the list that `handleNameList` builds holds exactly the summary rows with more
than 0 seats, is ordered by seats descending, and keeps rows of equal seats in their
order in the summary; the reply carries that list and the sum of its seats as total (or
says that nobody has booked, when the list is empty); the sheets are left as they are. -/
theorem handleNameList_list (s : Sheets) :
    (nameListBookings s).Perm
      ((s.summary.filter (fun row => decide (0 < row.totalSeats))).map
        (fun row => ({ name := row.userName, seats := row.totalSeats } : Booking))) ∧
    (nameListBookings s).Pairwise (fun a b => b.seats ≤ a.seats) ∧
    (∀ k, (nameListBookings s).filter (fun b => decide (b.seats = k)) =
      (s.summary.filter (fun row => decide (0 < row.totalSeats ∧ row.totalSeats = k))).map
        (fun row => ({ name := row.userName, seats := row.totalSeats } : Booking))) ∧
    (handleNameList s).reply =
      some (if nameListBookings s = [] then Reply.noBookings
        else Reply.nameList (nameListBookings s)
          ((nameListBookings s).map (fun b => b.seats)).sum) ∧
    (handleNameList s).sheets = s := by
  have hpred : (fun row : SummaryRow =>
      decide (row.totalSeats ≠ 0) && decide (row.totalSeats > 0)) =
      (fun row => decide (0 < row.totalSeats)) := by
    funext row
    by_cases h : 0 < row.totalSeats
    · have : row.totalSeats ≠ 0 := by omega
      simp [h, this]
    · simp [h]
  refine ⟨?_, ?_, ?_, ?_, ?_⟩
  · unfold nameListBookings
    rw [hpred]
    exact List.perm_insertionSort _ _
  · exact sorted_seats_insertionSort _
  · intro k
    unfold nameListBookings
    rw [filter_seats_insertionSort, hpred, List.filter_map, List.filter_filter]
    congr 1
    apply List.filter_congr
    intro row _
    by_cases h1 : 0 < row.totalSeats <;> by_cases h2 : row.totalSeats = k <;> simp [h1, h2]
  · unfold handleNameList
    by_cases h : nameListBookings s = []
    · simp [h]
    · have hlen : ¬ (nameListBookings s).length = 0 := by
        rw [List.length_eq_zero]
        exact h
      simp only [hlen, h, if_false]
      rw [foldl_seats]
      simp
  · unfold handleNameList
    dsimp only
    split_ifs <;> rfl

/-- C14 at the sample data: Bob with 3 seats comes first, then Ann and Dan with 2 seats
each in their summary order; Cho without seats is left out and the total is 7. -/
theorem handleNameList_list_sample :
    (handleNameList sheetsNames).reply =
      some (Reply.nameList
        [{ name := "Bob", seats := 3 }, { name := "Ann", seats := 2 },
         { name := "Dan", seats := 2 }] 7) := by
  decide

/-! ## The stored summary and the log -/

theorem summaryData_row_total (raw : List RawRow) (row : SummaryRow)
    (h : row ∈ summaryData raw) :
    row.totalSeats = userSum raw row.userId ∧ 0 < row.totalSeats := by
  obtain ⟨info, hget, hrow, hpos⟩ := (mem_summaryData raw row).mp h
  have hacc := accumulated_eq_userSum raw row.userId
  rw [accumulated, hget] at hacc
  have htot : row.totalSeats = info.total := by
    conv_lhs => rw [hrow]
    rfl
  rw [htot]
  exact ⟨hacc, hpos⟩

theorem exists_row_of_pos (raw : List RawRow) (u : String) (hpos : 0 < userSum raw u) :
    ∃ row ∈ summaryData raw, row.userId = u := by
  have hacc := accumulated_eq_userSum raw u
  unfold accumulated at hacc
  cases hget : (aggregate raw).get? u with
  | some info =>
    rw [hget] at hacc
    have htot : info.total = userSum raw u := hacc
    exact ⟨toSummaryRow (u, info),
      mem_summaryData_of_pos raw u info hget (by rw [htot]; exact hpos), rfl⟩
  | none =>
    rw [hget] at hacc
    have hzero : (0 : Int) = userSum raw u := hacc
    rw [← hzero] at hpos
    exact absurd hpos (lt_irrefl 0)

/-- What `getCurrentUserBookings` reads from a summary computed from `raw0`. -/
theorem getCurrentUserBookings_summaryData (raw raw0 : List RawRow) (u : String) :
    getCurrentUserBookings { raw := raw, summary := summaryData raw0 } (some u) =
      if u = "User ID" then 0
      else if 0 < userSum raw0 u then userSum raw0 u else 0 := by
  unfold getCurrentUserBookings
  by_cases hu : u = "User ID"
  · simp [hu]
  · simp only [hu, if_false]
    cases hfind : (summaryData raw0).find? (fun row => decide (row.userId = u)) with
    | some row =>
      have hmem := List.mem_of_find?_eq_some hfind
      have hid : row.userId = u := by simpa using List.find?_some hfind
      obtain ⟨htot, hpos⟩ := summaryData_row_total raw0 row hmem
      rw [hid] at htot
      rw [htot] at hpos
      simp [hpos, htot]
    | none =>
      have hnone : ¬ 0 < userSum raw0 u := by
        intro hpos
        obtain ⟨row, hrow, hid⟩ := exists_row_of_pos raw0 u hpos
        rw [List.find?_eq_none] at hfind
        exact hfind row hrow (by simpa using hid)
      simp [hnone]

theorem pos_users_perm (raw0 raw : List RawRow)
    (h : ∀ u, userSum raw0 u = userSum raw u) :
    ((users raw0).filter (fun u => decide (0 < accumulated raw0 u))).Perm
      ((users raw).filter (fun u => decide (0 < accumulated raw u))) := by
  have hmem : ∀ (r : List RawRow) (u : String),
      u ∈ (users r).filter (fun u => decide (0 < accumulated r u)) ↔ 0 < userSum r u := by
    intro r u
    rw [List.mem_filter, users, List.mem_dedup, accumulated_eq_userSum]
    simp only [decide_eq_true_eq, and_iff_right_iff_imp]
    intro hpos
    by_contra hnot
    rw [userSum_of_not_mem r u hnot] at hpos
    exact lt_irrefl 0 hpos
  have hnd : ∀ r : List RawRow,
      ((users r).filter (fun u => decide (0 < accumulated r u))).Nodup := by
    intro r
    unfold users
    exact (List.nodup_dedup _).filter _
  apply (List.perm_ext_iff_of_nodup (hnd raw0) (hnd raw)).mpr
  intro u
  rw [hmem, hmem, h]

/-- The grand total of a summary depends only on the sums of the users. -/
theorem sum_summaryData_congr (raw0 raw : List RawRow)
    (h : ∀ u, userSum raw0 u = userSum raw u) :
    ((summaryData raw0).map (fun row => row.totalSeats)).sum =
      ((summaryData raw).map (fun row => row.totalSeats)).sum := by
  rw [sum_summaryData, sum_summaryData]
  have hfun : accumulated raw0 = accumulated raw := by
    funext u
    rw [accumulated_eq_userSum, accumulated_eq_userSum, h]
  have hperm := pos_users_perm raw0 raw h
  rw [hfun] at hperm ⊢
  exact (hperm.map (accumulated raw)).sum_eq

theorem synced_rejected (profile : String → String) (s : Sheets) (event : Event) (r : Reply)
    (h : Synced s) : Synced (rejected profile s event r).sheets := by
  obtain ⟨raw0, hsum, hu⟩ := h
  refine ⟨raw0, hsum, fun u => ?_⟩
  rw [hu u]
  exact (userSum_append_zero _ _ _ rfl).symm

theorem synced_accepted (profile : String → String) (s : Sheets) (event : Event) :
    Synced (accepted profile s event).sheets :=
  ⟨_, rfl, fun _ => rfl⟩

theorem synced_handleBooking (cfg : Config) (s : Sheets) (profile : String → String)
    (event : Event) (h : Synced s) : Synced (handleBooking cfg profile s event).sheets := by
  rcases handleBooking_cases cfg profile s event with h1 | ⟨_, ⟨r, h1⟩ | h1⟩
  · rw [h1]
    exact h
  · rw [h1]
    exact synced_rejected profile s event r h
  · rw [h1]
    exact synced_accepted profile s event

/-- C13: after any sequence of calls of `handleBooking` from empty sheets, the user
total that `getCurrentUserBookings` reads and the grand total that
`getCurrentBookingTotal` reads from the stored summary are those read after the summary
is recomputed from the raw log, and the stored summary has a row with a given user id
and total exactly when the recomputed one has. -/
theorem stored_totals_match_log (cfg : Config) (calls : List Call) :
    (∀ u, getCurrentUserBookings (runBookings cfg emptySheets calls) u =
      getCurrentUserBookings
        (recalculateBookingSummary (runBookings cfg emptySheets calls)) u) ∧
    getCurrentBookingTotal (runBookings cfg emptySheets calls) =
      getCurrentBookingTotal
        (recalculateBookingSummary (runBookings cfg emptySheets calls)) ∧
    (∀ u t, (∃ row ∈ (runBookings cfg emptySheets calls).summary,
        row.userId = u ∧ row.totalSeats = t) ↔
      (∃ row ∈ (recalculateBookingSummary (runBookings cfg emptySheets calls)).summary,
        row.userId = u ∧ row.totalSeats = t)) := by
  have hsync : Synced (runBookings cfg emptySheets calls) :=
    runBookings_induction cfg Synced (fun s profile event h =>
      synced_handleBooking cfg s profile event h) calls emptySheets
      ⟨[], rfl, fun _ => rfl⟩
  generalize runBookings cfg emptySheets calls = s at hsync
  obtain ⟨raw0, hsum, hu⟩ := hsync
  obtain ⟨raw, summary⟩ := s
  simp only at hsum hu
  subst hsum
  refine ⟨fun u => ?_, ?_, fun u t => ?_⟩
  · cases u with
    | none => rfl
    | some u =>
      show getCurrentUserBookings { raw := raw, summary := summaryData raw0 } (some u) =
        getCurrentUserBookings { raw := raw, summary := summaryData raw } (some u)
      rw [getCurrentUserBookings_summaryData, getCurrentUserBookings_summaryData, hu u]
  · rw [getCurrentBookingTotal_eq_sum, getCurrentBookingTotal_eq_sum]
    exact sum_summaryData_congr raw0 raw hu
  · show (∃ row ∈ summaryData raw0, row.userId = u ∧ row.totalSeats = t) ↔
      (∃ row ∈ summaryData raw, row.userId = u ∧ row.totalSeats = t)
    have key : ∀ (r : List RawRow),
        (∃ row ∈ summaryData r, row.userId = u ∧ row.totalSeats = t) ↔
          (0 < userSum r u ∧ userSum r u = t) := by
      intro r
      constructor
      · rintro ⟨row, hrow, hid, ht⟩
        obtain ⟨htot, hpos⟩ := summaryData_row_total r row hrow
        rw [hid] at htot
        rw [htot] at hpos
        exact ⟨hpos, by rw [← htot, ht]⟩
      · rintro ⟨hpos, ht⟩
        obtain ⟨row, hrow, hid⟩ := exists_row_of_pos r u hpos
        refine ⟨row, hrow, hid, ?_⟩
        rw [(summaryData_row_total r row hrow).1, hid, ht]
    rw [key, key, hu u]

/-! ## Totals within the limits -/

theorem orNA_ne_empty (x : Option String) : orNA x ≠ "" := by
  cases x with
  | none => decide
  | some u =>
    by_cases h : u = ""
    · simp only [orNA, h, if_true]
      decide
    · simp only [orNA, h, if_false]
      exact h

theorem orNA_some (u : String) (h : u ≠ "") : orNA (some u) = u := by
  simp [orNA, h]

theorem sum_totals_update (b : Bookings) (row : RawRow) (h : b.has row.userId = true) :
    ((b.update row).map (fun e => e.2.total)).sum =
      (b.map (fun e => e.2.total)).sum + row.increment := by
  induction b with
  | nil => simp [Bookings.has] at h
  | cons e rest ih =>
    obtain ⟨k, i⟩ := e
    by_cases hk : k = row.userId
    · simp only [Bookings.update, hk, if_true, List.map_cons, List.sum_cons, Info.absorb]
      omega
    · have hrest : Bookings.has rest row.userId = true := by
        simp only [Bookings.has, List.any_cons, Bool.or_eq_true, decide_eq_true_eq] at h
        rcases h with h | h
        · exact absurd h hk
        · simpa [Bookings.has] using h
      simp only [Bookings.update, hk, if_false, List.map_cons, List.sum_cons, ih hrest]
      omega

theorem sum_totals_processRow (b : Bookings) (row : RawRow) :
    ((processRow b row).map (fun e => e.2.total)).sum =
      (b.map (fun e => e.2.total)).sum + row.increment := by
  unfold processRow
  by_cases hhas : b.has row.userId = true
  · rw [if_pos hhas, sum_totals_update b row hhas]
  · rw [if_neg hhas]
    simp [Info.first]

theorem sum_totals_aggregate (raw : List RawRow) :
    ((aggregate raw).map (fun e => e.2.total)).sum =
      (raw.map (fun row => row.increment)).sum := by
  induction raw using List.reverseRecOn with
  | nil => simp [aggregate]
  | append_singleton raw row ih =>
    rw [aggregate_append, sum_totals_processRow, ih]
    simp

theorem sum_filter_pos_of_nonneg (l : Bookings) (h : ∀ e ∈ l, 0 ≤ e.2.total) :
    ((l.filter (fun e => decide (0 < e.2.total))).map (fun e => e.2.total)).sum =
      (l.map (fun e => e.2.total)).sum := by
  induction l with
  | nil => rfl
  | cons e rest ih =>
    have hrest := ih (fun x hx => h x (List.mem_cons_of_mem _ hx))
    have he := h e (List.mem_cons_self _ _)
    by_cases hpos : 0 < e.2.total
    · simp [List.filter_cons, hpos, hrest]
    · have hzero : e.2.total = 0 := by omega
      simp [List.filter_cons, hpos, hrest, hzero]

theorem sum_summaryData_entries (raw : List RawRow) :
    ((summaryData raw).map (fun row => row.totalSeats)).sum =
      (((aggregate raw).filter (fun e => decide (0 < e.2.total))).map
        (fun e => e.2.total)).sum := by
  have h1 : ((summaryData raw).map (fun row => row.totalSeats)).sum =
      ((((aggregate raw).map toSummaryRow).filter
        (fun row => decide (row.totalSeats > 0))).map (fun row => row.totalSeats)).sum :=
    ((List.perm_insertionSort _ _).map _).sum_eq
  rw [h1, List.filter_map, List.map_map]
  rfl

/-- The grand total of a recomputed summary when no user has a negative sum. -/
theorem total_summaryData_of_nonneg (raw : List RawRow) (h : ∀ u, 0 ≤ userSum raw u) :
    getCurrentBookingTotal { raw := raw, summary := summaryData raw } =
      (raw.map (fun row => row.increment)).sum := by
  rw [getCurrentBookingTotal_eq_sum]
  show ((summaryData raw).map (fun row => row.totalSeats)).sum = _
  rw [sum_summaryData_entries, sum_filter_pos_of_nonneg, sum_totals_aggregate]
  intro e he
  rw [← accumulated_of_mem raw e he, accumulated_eq_userSum]
  exact h e.1

theorem sum_summaryData_nonneg (raw : List RawRow) :
    0 ≤ ((summaryData raw).map (fun row => row.totalSeats)).sum := by
  apply List.sum_nonneg
  intro x hx
  obtain ⟨row, hrow, rfl⟩ := List.mem_map.mp hx
  exact le_of_lt (summaryData_row_total raw row hrow).2

/-- In sheets within the limits the total read for the sender of an event is at most the
sum logged under the user id the event is recorded with. -/
theorem read_le_logged (cfg : Config) (s : Sheets) (h : Bounded cfg s)
    (userId : Option String) :
    getCurrentUserBookings s userId ≤ userSum s.raw (orNA userId) := by
  obtain ⟨⟨raw0, hsum, hu⟩, hnonneg, hids, _, _⟩ := h
  obtain ⟨raw, summary⟩ := s
  simp only at hsum hu hnonneg hids
  subst hsum
  cases userId with
  | none => exact hnonneg _
  | some u =>
    rw [getCurrentUserBookings_summaryData, hu u]
    by_cases h1 : u = "User ID"
    · rw [if_pos h1]
      exact hnonneg _
    · rw [if_neg h1]
      by_cases h2 : u = ""
      · have hzero : userSum raw u = 0 := by
          apply userSum_of_not_mem
          intro hmem
          obtain ⟨row, hrow, hid⟩ := List.mem_map.mp hmem
          exact hids row hrow (by rw [hid, h2])
        rw [hzero]
        simp only [lt_irrefl, if_false]
        exact hnonneg _
      · rw [orNA_some u h2]
        split_ifs
        · exact le_refl _
        · exact hnonneg u

theorem bounded_rejected (cfg : Config) (profile : String → String) (s : Sheets)
    (event : Event) (r : Reply) (h : Bounded cfg s) :
    Bounded cfg (rejected profile s event r).sheets := by
  obtain ⟨hsync, hnonneg, hids, htotal, hmax⟩ := h
  refine ⟨synced_rejected profile s event r hsync, fun u => ?_, ?_, ?_, hmax⟩
  · show 0 ≤ userSum (s.raw ++ [eventRow profile event 0]) u
    rw [userSum_append_zero _ _ _ rfl]
    exact hnonneg u
  · intro row hrow
    rcases List.mem_append.mp hrow with h1 | h1
    · exact hids row h1
    · rw [List.mem_singleton.mp h1]
      exact orNA_ne_empty _
  · show getCurrentBookingTotal s =
      ((s.raw ++ [eventRow profile event 0]).map (fun row => row.increment)).sum
    rw [htotal]
    simp [eventRow]

theorem bounded_accepted (cfg : Config) (profile : String → String) (s : Sheets)
    (event : Event) (h : Bounded cfg s)
    (hkeep : 0 ≤ userSum s.raw (orNA event.userId) + parseIncrement event.text)
    (hcap : getCurrentBookingTotal s + parseIncrement event.text ≤ cfg.MAX_SEATS) :
    Bounded cfg (accepted profile s event).sheets := by
  obtain ⟨_, hnonneg, hids, htotal, _⟩ := h
  have hnonneg1 : ∀ u,
      0 ≤ userSum (s.raw ++ [eventRow profile event (parseIncrement event.text)]) u := by
    intro u
    rw [userSum_append, userSum_single]
    by_cases hu : (eventRow profile event (parseIncrement event.text)).userId = u
    · rw [if_pos hu]
      have hu1 : orNA event.userId = u := hu
      rw [← hu1]
      exact hkeep
    · rw [if_neg hu]
      have := hnonneg u
      omega
  have htotal1 : getCurrentBookingTotal (accepted profile s event).sheets =
      ((s.raw ++ [eventRow profile event (parseIncrement event.text)]).map
        (fun row => row.increment)).sum :=
    total_summaryData_of_nonneg _ hnonneg1
  refine ⟨synced_accepted profile s event, hnonneg1, ?_, htotal1, ?_⟩
  · intro row hrow
    rcases List.mem_append.mp hrow with h1 | h1
    · exact hids row h1
    · rw [List.mem_singleton.mp h1]
      exact orNA_ne_empty _
  · rw [htotal1]
    have : ((s.raw ++ [eventRow profile event (parseIncrement event.text)]).map
        (fun row => row.increment)).sum =
        (s.raw.map (fun row => row.increment)).sum + parseIncrement event.text := by
      simp [eventRow]
    rw [this, ← htotal]
    exact hcap

theorem bounded_handleBooking (cfg : Config) (s : Sheets) (profile : String → String)
    (event : Event) (h : Bounded cfg s) :
    Bounded cfg (handleBooking cfg profile s event).sheets := by
  cases hlog : isMessageAlreadyLogged s event.messageId with
  | true =>
    rw [handleBooking_of_logged cfg profile s event hlog]
    exact h
  | false =>
    have hread := read_le_logged cfg s h event.userId
    have hmax := h.2.2.2.2
    rw [handleBooking_of_new cfg profile s event hlog]
    split_ifs with h1 h2 h3 h4
    · exact bounded_rejected cfg profile s event _ h
    · exact bounded_accepted cfg profile s event h (by omega) (by omega)
    · exact bounded_rejected cfg profile s event _ h
    · exact bounded_rejected cfg profile s event _ h
    · have := h.2.1 (orNA event.userId)
      exact bounded_accepted cfg profile s event h (by omega) (by omega)

theorem bounded_emptySheets (cfg : Config) (hmax : 0 ≤ cfg.MAX_SEATS) :
    Bounded cfg emptySheets :=
  ⟨⟨[], rfl, fun _ => rfl⟩, fun _ => le_refl _, fun _ h => absurd h (List.not_mem_nil _),
    rfl, hmax⟩

/-- C17: with a capacity `MAX_SEATS` of at least 0, after any sequence of calls of
`handleBooking` from empty sheets, processed one at a time, every user has a sum of
logged increments of at least 0, and the grand total is at least 0 and at most
`MAX_SEATS` (it is the sum of all logged increments). -/
theorem runBookings_totals_bounded (cfg : Config) (hmax : 0 ≤ cfg.MAX_SEATS)
    (calls : List Call) :
    (∀ u, 0 ≤ userSum (runBookings cfg emptySheets calls).raw u) ∧
    0 ≤ getCurrentBookingTotal (runBookings cfg emptySheets calls) ∧
    getCurrentBookingTotal (runBookings cfg emptySheets calls) ≤ cfg.MAX_SEATS ∧
    getCurrentBookingTotal (runBookings cfg emptySheets calls) =
      ((runBookings cfg emptySheets calls).raw.map (fun row => row.increment)).sum := by
  have hb : Bounded cfg (runBookings cfg emptySheets calls) :=
    runBookings_induction cfg (Bounded cfg) (fun s profile event h =>
      bounded_handleBooking cfg s profile event h) calls emptySheets
      (bounded_emptySheets cfg hmax)
  obtain ⟨⟨raw0, hsum, _⟩, hnonneg, _, htotal, hle⟩ := hb
  refine ⟨hnonneg, ?_, hle, htotal⟩
  rw [getCurrentBookingTotal_eq_sum, hsum]
  exact sum_summaryData_nonneg raw0

/-- C17, at the sample data: the shipped capacity of 10 and a sequence of five calls, of
which a cancellation beyond what is held and a booking beyond the capacity are turned
down. -/
theorem runBookings_totals_bounded_witness :
    (0 : Int) ≤ CONFIG.MAX_SEATS ∧
    (∀ u, 0 ≤ userSum (runBookings CONFIG emptySheets sampleCalls).raw u) ∧
    0 ≤ getCurrentBookingTotal (runBookings CONFIG emptySheets sampleCalls) ∧
    getCurrentBookingTotal (runBookings CONFIG emptySheets sampleCalls) ≤ 10 ∧
    getCurrentBookingTotal (runBookings CONFIG emptySheets sampleCalls) = 7 :=
  ⟨by decide,
    (runBookings_totals_bounded CONFIG (by decide) sampleCalls).1,
    (runBookings_totals_bounded CONFIG (by decide) sampleCalls).2.1,
    (runBookings_totals_bounded CONFIG (by decide) sampleCalls).2.2.1,
    by decide⟩

/-! ## The user id an event is validated and recorded with -/

/-- C18: an event without a user id is recorded under the user id N/A, for which the
summary holds 2 seats after such an event booked 2, while `handleBooking` validates the
next such event against `getCurrentUserBookings(undefined)`, which is 0: the
cancellation of 1 seat is turned down with the answer that 0 seats are held. -/
theorem handleBooking_anonymous_total :
    (anonymousEvent "-1" "m2").userId = none ∧
    (eventRow sampleProfile (anonymousEvent "-1" "m2") 0).userId = "N/A" ∧
    sheetsAnonymous.summary =
      [{ lastUpdate := 5000, groupId := "N/A", userId := "N/A", userName := "Unknown",
         totalSeats := 2 }] ∧
    getCurrentUserBookings sheetsAnonymous (some "N/A") = 2 ∧
    getCurrentUserBookings sheetsAnonymous (anonymousEvent "-1" "m2").userId = 0 ∧
    handleBooking CONFIG sampleProfile sheetsAnonymous (anonymousEvent "-1" "m2") =
      rejected sampleProfile sheetsAnonymous (anonymousEvent "-1" "m2")
        (Reply.cannotCancel 0) := by
  decide

/-! ## The vocabulary -/

theorem parseIncrement_of_valid (m : String) (hm : m ∈ CONFIG.VALID_INCREMENTS) :
    parseIncrement m ≠ 0 ∧ -4 ≤ parseIncrement m ∧ parseIncrement m ≤ 4 ∧
    parseIncrementValue m = JsValue.number (parseIncrement m) := by
  revert m
  decide

theorem parseIncrement_of_not_valid (m : String) (hm : m ∉ CONFIG.VALID_INCREMENTS) :
    parseIncrement m = 0 ∧ numberMap.lookup m = none := by
  simp only [CONFIG, List.mem_cons, List.mem_singleton, List.not_mem_nil, or_false,
    not_or] at hm
  obtain ⟨h1, h2, h3, h4, h5, h6, h7, h8, h9, h10, h11, h12, h13, h14, h15, h16⟩ := hm
  constructor
  · simp [parseIncrement, *]
  · have hb : ∀ k : String, ¬ m = k → (m == k) = false := fun k hk => by simpa using hk
    simp only [numberMap, List.lookup, hb _ h1, hb _ h2, hb _ h3, hb _ h4, hb _ h5, hb _ h6,
      hb _ h7, hb _ h8, hb _ h9, hb _ h10, hb _ h11, hb _ h12, hb _ h13, hb _ h14, hb _ h15,
      hb _ h16]

theorem isValidBookingMessage_iff (m : String) :
    isValidBookingMessage CONFIG m = true ↔ m ∈ CONFIG.VALID_INCREMENTS := by
  simp [isValidBookingMessage]

theorem parseIncrementValue_of_not_member (m : String) (hm : m ∉ objectPrototypeMembers) :
    parseIncrementValue m = JsValue.number (parseIncrement m) := by
  by_cases hv : m ∈ CONFIG.VALID_INCREMENTS
  · exact (parseIncrement_of_valid m hv).2.2.2
  · obtain ⟨hzero, hnone⟩ := parseIncrement_of_not_valid m hv
    have hmem : objectPrototypeMembers.contains m = false := by
      simpa using hm
    unfold parseIncrementValue
    rw [hnone, hzero]
    simp only [hmem]
    rfl

/-- No name of an inherited member is passed on to `handleBooking` by `doPost`. -/
theorem not_member_of_route_booking (text : String)
    (h : route CONFIG text = Route.booking) : text ∉ objectPrototypeMembers := by
  intro hmem
  have hall : ∀ m ∈ objectPrototypeMembers, route CONFIG m ≠ Route.booking := by decide
  exact hall text hmem h

/-- The lookup on the object literal also finds inherited members: the text
`constructor`, which `doPost` does not pass on, makes line 351 yield that member. -/
theorem parseIncrementValue_constructor :
    parseIncrementValue "constructor" = JsValue.inherited "constructor" ∧
    route CONFIG "constructor" = Route.ignored := by
  decide

/-- C19: `parseIncrement` and `isValidBookingMessage` agree on the vocabulary: for every
text the number that `parseIncrement` gives is not 0 exactly when the text is in
`VALID_INCREMENTS`, it lies in [-4,4], and `+n` and `加n` give n, `-n` and `減n` give -n.
On every text that `doPost` passes on to `handleBooking`, and on every text that is not
the name of a member inherited from `Object.prototype`, that number is the value of
`numberMap[message] || 0`. -/
theorem parseIncrement_agrees_with_vocabulary :
    (∀ m, parseIncrement m ≠ 0 ↔ isValidBookingMessage CONFIG m = true) ∧
    (∀ m, parseIncrement m = 0 ↔ m ∉ CONFIG.VALID_INCREMENTS) ∧
    (∀ m, -4 ≤ parseIncrement m ∧ parseIncrement m ≤ 4) ∧
    (parseIncrement "+1" = 1 ∧ parseIncrement "+2" = 2 ∧ parseIncrement "+3" = 3 ∧
      parseIncrement "+4" = 4) ∧
    (parseIncrement "加一" = 1 ∧ parseIncrement "加二" = 2 ∧ parseIncrement "加三" = 3 ∧
      parseIncrement "加四" = 4) ∧
    (parseIncrement "-1" = -1 ∧ parseIncrement "-2" = -2 ∧ parseIncrement "-3" = -3 ∧
      parseIncrement "-4" = -4) ∧
    (parseIncrement "減一" = -1 ∧ parseIncrement "減二" = -2 ∧ parseIncrement "減三" = -3 ∧
      parseIncrement "減四" = -4) ∧
    (∀ text, route CONFIG text = Route.booking →
      parseIncrementValue text = JsValue.number (parseIncrement text)) ∧
    (∀ m, m ∉ objectPrototypeMembers →
      parseIncrementValue m = JsValue.number (parseIncrement m)) := by
  refine ⟨?_, ?_, ?_, by decide, by decide, by decide, by decide, ?_, ?_⟩
  · intro m
    rw [isValidBookingMessage_iff]
    by_cases hv : m ∈ CONFIG.VALID_INCREMENTS
    · exact ⟨fun _ => hv, fun _ => (parseIncrement_of_valid m hv).1⟩
    · exact ⟨fun h => absurd (parseIncrement_of_not_valid m hv).1 h, fun h => absurd h hv⟩
  · intro m
    by_cases hv : m ∈ CONFIG.VALID_INCREMENTS
    · exact ⟨fun h => absurd h (parseIncrement_of_valid m hv).1, fun h => absurd hv h⟩
    · exact ⟨fun _ => hv, fun _ => (parseIncrement_of_not_valid m hv).1⟩
  · intro m
    by_cases hv : m ∈ CONFIG.VALID_INCREMENTS
    · exact ⟨(parseIncrement_of_valid m hv).2.1, (parseIncrement_of_valid m hv).2.2.1⟩
    · rw [(parseIncrement_of_not_valid m hv).1]
      decide
  · intro text h
    exact parseIncrementValue_of_not_member text (not_member_of_route_booking text h)
  · exact parseIncrementValue_of_not_member

/-- C19, at sample texts: the token 加二 and the padded text that `doPost` routes to
`handleBooking`. -/
theorem parseIncrement_agrees_with_vocabulary_witness :
    isValidBookingMessage CONFIG "加二" = true ∧ parseIncrement "加二" ≠ 0 ∧
    isValidBookingMessage CONFIG "two" = false ∧ parseIncrement "two" = 0 ∧
    route CONFIG " 加二" = Route.booking ∧
    parseIncrementValue " 加二" = JsValue.number (parseIncrement " 加二") :=
  ⟨by decide,
    (parseIncrement_agrees_with_vocabulary.1 "加二").mpr (by decide),
    by decide,
    (parseIncrement_agrees_with_vocabulary.2.1 "two").mpr (by decide),
    by decide,
    parseIncrement_agrees_with_vocabulary.2.2.2.2.2.2.2.1 " 加二" (by decide)⟩

end LineBooking
